import Mathlib

/-!
Verification of the Bublinka inventory allocation core.

This file gives a shallow embedding of the inventory allocation engine of
the Bublinka ERP repository and proves (or refutes) the frozen claims about
it.  The embedded functions mirror, statement by statement, the TypeScript
server actions:

* `cutInventoryItem` and `performOrderCut` from `src/app/actions/inventory.ts`
  (the manual guillotine cut and the order allocation L-shape cut);
* `updateOrderStatus` from `src/app/actions/orders.ts`
  (the order status machine with its reservation bookkeeping);
* `addInventoryItem` from `src/app/actions/inventory.ts` (bulk add);
* `getOrderMaterialAvailability`, which is absent from the snapshot of the
  repository and is therefore modelled from the specification (see its doc
  comment).

Numeric columns (`width`, `height`, `thickness`, `price`, `reservedQuantity`,
ingredient `quantity`) are `DOUBLE PRECISION` in the store and are embedded
as rationals; ids (uuids / serials in the store) are embedded as naturals.
The persisted collection of `InventoryItem` rows is embedded as a list kept
in creation order (rows are only ever appended), together with a counter
supplying fresh ids; `createdAt` is taken from that counter, so the list
order coincides with `ORDER BY createdAt ASC` and `List.filter` enumerates
matches oldest first, which is how the `findMany(orderBy: createdAt asc)`
queries are modelled.  A Prisma `update where id` is modelled as a map over
the list that rewrites the row(s) with that id.  A server action that
returns `{ success: false, error }` before writing anything is modelled as
`Except.error` with the action's (Czech) message; `Except.ok` carries the
state after the transaction.

`ProductIngredient.inventoryItemId` is nullable (the catalog-links
migration), so the requirement keys of the status machine are `Option Nat`.
A side-effecting branch of `updateOrderStatus` calls
`tx.inventoryItem.findUnique({ where: { id: inventoryItemId } })` for each
requirement; on a null key that call throws a Prisma validation error,
which aborts the `$transaction` (rolling it back) and is caught by the
outer `catch`, so the action returns the generic failure message and the
database is unchanged.  The requirement walk is therefore fallible
(`runRequirements`, returning `none` for the throw); transitions whose
pair matches no branch run no walk and cannot throw.
-/

namespace Bublinka

/-- `InventoryStatus` enum of the Prisma schema. -/
inductive InventoryStatus where
  | AVAILABLE
  | CONSUMED
  | REMNANT
deriving DecidableEq, Repr

/-- `OrderStatus` enum of the Prisma schema. -/
inductive OrderStatus where
  | DRAFT
  | IN_PROGRESS
  | COMPLETED
  | CANCELLED
deriving DecidableEq, Repr

/-- One `InventoryItem` row (a physical stock unit). -/
structure InventoryItem where
  id : Nat
  name : String
  width : ℚ
  height : ℚ
  thickness : ℚ
  price : ℚ
  status : InventoryStatus
  reservedQuantity : ℚ
  parentId : Option Nat
  itemDefinitionId : Option Nat
  createdAt : Nat
deriving DecidableEq, Repr

/-- The persisted `InventoryItem` table: rows in creation order plus a fresh-id
counter.  `createdAt` of a newly created row is the counter value, so the list
is ascending in `createdAt`. -/
structure InventoryDB where
  items : List InventoryItem
  nextId : Nat
deriving DecidableEq, Repr

/-- `prisma.inventoryItem.findUnique({ where: { id } })`. -/
def findItem (items : List InventoryItem) (i : Nat) : Option InventoryItem :=
  items.find? (fun it => it.id == i)

/-- `prisma.inventoryItem.update({ where: { id }, data })`: rewrite the row
with the given id. -/
def updateItem (items : List InventoryItem) (i : Nat)
    (f : InventoryItem → InventoryItem) : List InventoryItem :=
  items.map (fun it => if it.id = i then f it else it)

/-- `prisma.inventoryItem.create({ data })`: append a fresh row, stamping it
with the fresh id (which also serves as its creation timestamp). -/
def createItem (db : InventoryDB) (mk : Nat → InventoryItem) : InventoryDB :=
  { items := db.items ++ [mk db.nextId], nextId := db.nextId + 1 }

/-- The `update({ where: { id }, data: { status: CONSUMED } })` write both
cut operations use to consume the source row. -/
def consumeRow (items : List InventoryItem) (i : Nat) : List InventoryItem :=
  updateItem items i (fun it => { it with status := .CONSUMED })

/-- Helper `generateRemnantName` from `inventory.ts` (both branches of its
`if` produce the same prefix; the source keeps the branch, so we do too). -/
def generateRemnantName (originalName : String) : String :=
  if originalName.startsWith "Zbytek z " then
    "Zbytek z " ++ originalName
  else
    "Zbytek z " ++ originalName

/-- Cut direction accepted by `cutInventoryItemSchema`. -/
inductive CutDirection where
  | horizontal
  | vertical
deriving DecidableEq, Repr

/-- Parsed input of `cutInventoryItem` (`cutInventoryItemSchema`). -/
structure CutInput where
  id : Nat
  cutWidth : ℚ
  cutHeight : ℚ
  direction : CutDirection
  saveMainRemnant : Bool
  saveSecondaryRemnant : Bool
deriving DecidableEq, Repr

/-- A remnant candidate computed by the smart-cut logic of
`cutInventoryItem` (width, height, thickness). -/
structure Remnant where
  width : ℚ
  height : ℚ
  thickness : ℚ
deriving DecidableEq, Repr

/-- The remnant row created inside the `cutInventoryItem` transaction:
status `REMNANT`, parent = source, catalog definition and price inherited
proportionally to area.  The source row does not carry `reservedQuantity`
in the create call, so it takes the column default 0. -/
def remnantRow (originalItem : InventoryItem) (sourceId : Nat) (r : Remnant)
    (freshId : Nat) : InventoryItem :=
  { id := freshId
    name := generateRemnantName originalItem.name
    width := r.width
    height := r.height
    thickness := r.thickness
    price := originalItem.price * (r.width * r.height) /
      (originalItem.width * originalItem.height)
    status := .REMNANT
    reservedQuantity := 0
    parentId := some sourceId
    itemDefinitionId := originalItem.itemDefinitionId
    createdAt := freshId }

/-- The transaction body of `cutInventoryItem` in the smart-cut case: mark
the original `CONSUMED`, then create the main remnant if requested, then the
secondary remnant if requested and present. -/
def executeCutTransaction (db : InventoryDB) (inp : CutInput)
    (originalItem : InventoryItem) (mainRemnant : Remnant)
    (secondaryRemnant : Option Remnant) : InventoryDB :=
  let db1 : InventoryDB := { db with items := consumeRow db.items inp.id }
  let db2 : InventoryDB :=
    if inp.saveMainRemnant then
      createItem db1 (remnantRow originalItem inp.id mainRemnant)
    else db1
  match secondaryRemnant with
  | some s =>
      if inp.saveSecondaryRemnant then
        createItem db2 (remnantRow originalItem inp.id s)
      else db2
  | none => db2

/-- `cutInventoryItem` from `inventory.ts`: manual guillotine cut with
consume-whole detection, per-direction validation and remnant creation. -/
def cutInventoryItem (db : InventoryDB) (inp : CutInput) :
    Except String InventoryDB :=
  match findItem db.items inp.id with
  | none => .error "Položka nenalezena"
  | some originalItem =>
    if originalItem.status = .AVAILABLE then
      if inp.cutWidth = originalItem.width ∧ inp.cutHeight = originalItem.height then
        .ok { db with items := consumeRow db.items inp.id }
      else
        match inp.direction with
        | .horizontal =>
          if inp.cutWidth > originalItem.width then
            .error "Šířka řezu nesmí být větší než šířka původní položky"
          else
            let mainRemnant : Remnant :=
              ⟨originalItem.width - inp.cutWidth, originalItem.height,
                originalItem.thickness⟩
            let secondaryRemnant : Option Remnant :=
              if inp.cutHeight < originalItem.height then
                some ⟨inp.cutWidth, originalItem.height - inp.cutHeight,
                  originalItem.thickness⟩
              else none
            .ok (executeCutTransaction db inp originalItem mainRemnant
              secondaryRemnant)
        | .vertical =>
          if inp.cutHeight > originalItem.height then
            .error "Výška řezu nesmí být větší než výška původní položky"
          else
            let mainRemnant : Remnant :=
              ⟨originalItem.width, originalItem.height - inp.cutHeight,
                originalItem.thickness⟩
            let secondaryRemnant : Option Remnant :=
              if inp.cutWidth < originalItem.width then
                some ⟨originalItem.width - inp.cutWidth, inp.cutHeight,
                  originalItem.thickness⟩
              else none
            .ok (executeCutTransaction db inp originalItem mainRemnant
              secondaryRemnant)
    else .error "Položka není dostupná k řezání"

/-- `MIN_OFFCUT_DIMENSION_MM` from `inventory.ts`. -/
def MIN_OFFCUT_DIMENSION_MM : ℚ := 10

/-- `isValidOffcut` from `performOrderCut`: both dimensions strictly above
the minimum offcut threshold. -/
def isValidOffcut (w h : ℚ) : Bool :=
  decide (w > MIN_OFFCUT_DIMENSION_MM ∧ h > MIN_OFFCUT_DIMENSION_MM)

/-- Parsed input of `performOrderCut` (`performOrderCutSchema`). -/
structure OrderCutInput where
  sourceItemId : Nat
  targetWidth : ℚ
  targetHeight : ℚ
  quantity : Nat
  orderId : Nat
deriving DecidableEq, Repr

/-- `performOrderCut` from `inventory.ts`: guillotine L-shape allocation cut.
Consumes the source, creates one reserved target piece and up to two
offcuts.  The `quantity` input is validated but never used by the body. -/
def performOrderCut (db : InventoryDB) (inp : OrderCutInput) :
    Except String InventoryDB :=
  match findItem db.items inp.sourceItemId with
  | none => .error "Zdrojová položka nenalezena"
  | some sourceItem =>
    if sourceItem.status = .AVAILABLE then
      let w_source := sourceItem.width
      let h_source := sourceItem.height
      let w_req := inp.targetWidth
      let h_req := inp.targetHeight
      if w_source < w_req ∨ h_source < h_req then
        .error "Rozměry zdrojové položky jsou menší než požadované"
      else
        let originalArea := w_source * h_source
        let targetArea := w_req * h_req
        let targetPrice := sourceItem.price * targetArea / originalArea
        let offcutRight : Remnant :=
          ⟨w_source - w_req, h_source, sourceItem.thickness⟩
        let offcutTop : Remnant :=
          ⟨w_req, h_source - h_req, sourceItem.thickness⟩
        let createRight := isValidOffcut offcutRight.width offcutRight.height
        let createTop := isValidOffcut offcutTop.width offcutTop.height
        let sourceId := inp.sourceItemId
        let inheritedDefinitionId := sourceItem.itemDefinitionId
        let inheritedThickness := sourceItem.thickness
        let targetName := sourceItem.name ++ " (Cut)"
        let offcutName := generateRemnantName sourceItem.name
        let db1 : InventoryDB := { db with items := consumeRow db.items sourceId }
        let db2 : InventoryDB := createItem db1 (fun freshId =>
          { id := freshId, name := targetName, width := w_req, height := h_req
            thickness := inheritedThickness, price := targetPrice
            status := .AVAILABLE, reservedQuantity := 1
            parentId := some sourceId
            itemDefinitionId := inheritedDefinitionId, createdAt := freshId })
        let db3 : InventoryDB :=
          if createRight then
            createItem db2 (fun freshId =>
              { id := freshId, name := offcutName
                width := offcutRight.width, height := offcutRight.height
                thickness := inheritedThickness
                price := sourceItem.price * (offcutRight.width * offcutRight.height) / originalArea
                status := .AVAILABLE, reservedQuantity := 0
                parentId := some sourceId
                itemDefinitionId := inheritedDefinitionId, createdAt := freshId })
          else db2
        let db4 : InventoryDB :=
          if createTop then
            createItem db3 (fun freshId =>
              { id := freshId, name := offcutName
                width := offcutTop.width, height := offcutTop.height
                thickness := inheritedThickness
                price := sourceItem.price * (offcutTop.width * offcutTop.height) / originalArea
                status := .AVAILABLE, reservedQuantity := 0
                parentId := some sourceId
                itemDefinitionId := inheritedDefinitionId, createdAt := freshId })
          else db3
        .ok db4
    else .error "Zdrojová položka není dostupná k řezání"

/-- `ItemDefinition` row (catalog definition); only the fields the core
reads. -/
structure ItemDefinition where
  id : Nat
  name : String
deriving DecidableEq, Repr

/-- Parsed input of `addInventoryItem` (`addInventoryItemSchema`): either an
`itemDefinitionId` (with optional note) or a free-text `name`; the zod
refinements (positive dimensions, positive integer quantity, either
definition or non-blank name) appear as hypotheses of the theorems. -/
structure AddInput where
  itemDefinitionId : Option Nat
  note : Option String
  name : Option String
  width : ℚ
  height : ℚ
  thickness : ℚ
  quantity : Nat
  totalPrice : ℚ
deriving DecidableEq, Repr

/-- `List.replicate` of the bulk-created row, modelling the
`prisma.$transaction(Array.from({ length: quantity }, () => create(...)))`
loop: each created row is AVAILABLE with unit price `totalPrice / quantity`
and default `reservedQuantity` 0. -/
def bulkCreate (db : InventoryDB) (displayName : String)
    (defId : Option Nat) (inp : AddInput) : Nat → InventoryDB
  | 0 => db
  | n + 1 =>
      bulkCreate
        (createItem db (fun freshId =>
          { id := freshId, name := displayName, width := inp.width
            height := inp.height, thickness := inp.thickness
            price := inp.totalPrice / inp.quantity
            status := .AVAILABLE, reservedQuantity := 0, parentId := none
            itemDefinitionId := defId, createdAt := freshId }))
        displayName defId inp n

/-- `addInventoryItem` from `inventory.ts`: resolve the display name (from
the catalog definition plus note, or the free-text name), then create
`quantity` identical AVAILABLE rows at unit price `totalPrice / quantity`. -/
def addInventoryItem (defs : List ItemDefinition) (db : InventoryDB)
    (inp : AddInput) : Except String InventoryDB :=
  match inp.itemDefinitionId with
  | some defId =>
    match defs.find? (fun d => d.id == defId) with
    | none => .error "Definice položky nenalezena"
    | some definition =>
      let noteTrimmed := (inp.note.getD "").trim
      let displayName :=
        if noteTrimmed ≠ "" then definition.name ++ " – " ++ noteTrimmed
        else definition.name
      .ok (bulkCreate db displayName (some definition.id) inp inp.quantity)
  | none =>
    .ok (bulkCreate db ((inp.name.getD "").trim) none inp inp.quantity)

/-- One `ProductIngredient` row as read by `updateOrderStatus` (the order is
loaded with `items.product.ingredients`).  The catalog-links migration makes
the legacy `inventoryItemId` column nullable, and the staged
`createProduct`/`updateProduct` write `null` for definition-based
ingredients, so the reference is an `Option`.  The status machine reads
only this column; the `itemDefinitionId` column is carried but never
consulted. -/
structure Ingredient where
  inventoryItemId : Option Nat
  itemDefinitionId : Option Nat
  quantity : ℚ
deriving DecidableEq, Repr

/-- One `OrderItem` row with its product's ingredient list, as loaded by the
`include` of `updateOrderStatus`. -/
structure OrderItemRow where
  quantity : Nat
  ingredients : List Ingredient
deriving DecidableEq, Repr

/-- One `Order` row, carrying its items as loaded by the `include`. -/
structure Order where
  id : Nat
  status : OrderStatus
  items : List OrderItemRow
deriving DecidableEq, Repr

/-- The database state the order status machine touches. -/
structure DB where
  orders : List Order
  inv : InventoryDB
deriving DecidableEq, Repr

/-- `prisma.order.findUnique({ where: { id } })`. -/
def findOrder (orders : List Order) (i : Nat) : Option Order :=
  orders.find? (fun o => o.id == i)

/-- Insert-or-add on an association list, modelling the JS
`Map.set(key, (Map.get(key) || 0) + v)` idiom (an existing key keeps its
insertion position; JS tolerates a `null` key, hence the `Option`). -/
def upsertAdd (m : List (Option Nat × ℚ)) (k : Option Nat) (v : ℚ) :
    List (Option Nat × ℚ) :=
  match m with
  | [] => [(k, v)]
  | (k', v') :: rest =>
      if k' = k then (k', v' + v) :: rest else (k', v') :: upsertAdd rest k v

/-- The `inventoryRequirements` map of `updateOrderStatus`: for each order
item and each of its product's ingredients, add
`ingredient.quantity * orderItem.quantity` under the ingredient's
`inventoryItemId` key (possibly `none` for a definition-based line). -/
def buildRequirements (ord : Order) : List (Option Nat × ℚ) :=
  ord.items.foldl
    (fun acc oi =>
      oi.ingredients.foldl
        (fun acc2 ing =>
          upsertAdd acc2 ing.inventoryItemId (ing.quantity * (oi.quantity : ℚ)))
        acc)
    []

/-- The reserve loop of `updateOrderStatus` (`DRAFT → IN_PROGRESS` and
`COMPLETED → IN_PROGRESS`): walk the selected rows, each time setting
`reservedQuantity = min(1, remainingQty)` and decrementing, stopping once
the remaining requirement is no longer positive. -/
def reserveLoop (items : List InventoryItem) (sel : List InventoryItem)
    (remainingQty : ℚ) : List InventoryItem :=
  match sel with
  | [] => items
  | item :: rest =>
      if remainingQty ≤ 0 then items
      else
        let reserveAmount := min 1 remainingQty
        reserveLoop
          (updateItem items item.id
            (fun it => { it with reservedQuantity := reserveAmount }))
          rest (remainingQty - reserveAmount)

/-- The `findMany` of the reserve branch: AVAILABLE rows with the given
display name and `reservedQuantity = 0`, oldest first (the store is kept in
creation order), limited to `ceil(requiredQty)` rows. -/
def reserveSelection (items : List InventoryItem) (n : String) (qty : ℚ) :
    List InventoryItem :=
  (items.filter (fun it =>
    decide (it.name = n ∧ it.status = .AVAILABLE ∧
      it.reservedQuantity = 0))).take ⌈qty⌉.toNat

/-- The `findMany` of the consume and release branches: rows with the given
display name and `reservedQuantity > 0` (no status filter), oldest first,
limited to `ceil(requiredQty)` rows. -/
def reservedSelection (items : List InventoryItem) (n : String) (qty : ℚ) :
    List InventoryItem :=
  (items.filter (fun it =>
    decide (it.name = n ∧ 0 < it.reservedQuantity))).take ⌈qty⌉.toNat

/-- One iteration of the reserve branch for one requirement entry: look up
the reference row to learn its display name, select up to
`ceil(requiredQty)` AVAILABLE rows with that name and `reservedQuantity`
0 (oldest first), and run the reserve loop over them. -/
def reserveForRequirement (items : List InventoryItem) (req : Nat × ℚ) :
    List InventoryItem :=
  match findItem items req.1 with
  | none => items
  | some referenceItem =>
      reserveLoop items (reserveSelection items referenceItem.name req.2) req.2

/-- The consume loop of `updateOrderStatus` (`IN_PROGRESS → COMPLETED`):
each selected row is set to `reservedQuantity = 0` and `CONSUMED`, and the
remaining requirement shrinks by `min(row.reservedQuantity, remainingQty)`
computed from the selected snapshot. -/
def consumeLoop (items : List InventoryItem) (sel : List InventoryItem)
    (remainingQty : ℚ) : List InventoryItem :=
  match sel with
  | [] => items
  | item :: rest =>
      if remainingQty ≤ 0 then items
      else
        let consumeAmount := min item.reservedQuantity remainingQty
        consumeLoop
          (updateItem items item.id
            (fun it => { it with reservedQuantity := 0, status := .CONSUMED }))
          rest (remainingQty - consumeAmount)

/-- One iteration of the consume branch for one requirement entry: select up
to `ceil(requiredQty)` rows with the reference row's name and
`reservedQuantity > 0` (oldest first; note no status filter) and consume
them. -/
def consumeForRequirement (items : List InventoryItem) (req : Nat × ℚ) :
    List InventoryItem :=
  match findItem items req.1 with
  | none => items
  | some referenceItem =>
      consumeLoop items (reservedSelection items referenceItem.name req.2) req.2

/-- The release loop of `updateOrderStatus` (`IN_PROGRESS → DRAFT` and
`IN_PROGRESS → CANCELLED`): each selected row's `reservedQuantity` becomes
`max(0, snapshot − min(snapshot, remainingQty))`, both computed from the
selected snapshot. -/
def releaseLoop (items : List InventoryItem) (sel : List InventoryItem)
    (remainingQty : ℚ) : List InventoryItem :=
  match sel with
  | [] => items
  | item :: rest =>
      if remainingQty ≤ 0 then items
      else
        let releaseAmount := min item.reservedQuantity remainingQty
        let newQty := max 0 (item.reservedQuantity - releaseAmount)
        releaseLoop
          (updateItem items item.id
            (fun it => { it with reservedQuantity := newQty }))
          rest (remainingQty - releaseAmount)

/-- One iteration of the release branch for one requirement entry: same
selection as the consume branch, but decrement reservations instead of
consuming. -/
def releaseForRequirement (items : List InventoryItem) (req : Nat × ℚ) :
    List InventoryItem :=
  match findItem items req.1 with
  | none => items
  | some referenceItem =>
      releaseLoop items (reservedSelection items referenceItem.name req.2) req.2

/-- The `for (const [inventoryItemId, requiredQty] of
inventoryRequirements.entries())` loop of a side-effecting branch: each
entry first runs `tx.inventoryItem.findUnique({ where: { id:
inventoryItemId } })`.  A `none` key makes that call throw a Prisma
validation error (`findUnique` requires a non-null unique value), which
aborts the loop and the surrounding transaction, so the walk is fallible:
`none` models the throw.  A `some` key proceeds with the per-requirement
step. -/
def runRequirements
    (step : List InventoryItem → Nat × ℚ → List InventoryItem)
    (items : List InventoryItem) :
    List (Option Nat × ℚ) → Option (List InventoryItem)
  | [] => some items
  | (none, _) :: _ => none
  | (some rid, qty) :: rest => runRequirements step (step items (rid, qty)) rest

/-- `allowedTransitions` table of `updateOrderStatus`. -/
def allowedTransitions (s : OrderStatus) : List OrderStatus :=
  match s with
  | .DRAFT => [.IN_PROGRESS, .CANCELLED]
  | .IN_PROGRESS => [.COMPLETED, .DRAFT, .CANCELLED]
  | .COMPLETED => [.CANCELLED, .IN_PROGRESS]
  | .CANCELLED => [.DRAFT]

/-- Status names as interpolated into the rejection message. -/
def statusName : OrderStatus → String
  | .DRAFT => "DRAFT"
  | .IN_PROGRESS => "IN_PROGRESS"
  | .COMPLETED => "COMPLETED"
  | .CANCELLED => "CANCELLED"

/-- The `if`/`else if` chain inside the `updateOrderStatus` transaction that
dispatches the inventory side effect of a transition; any pair not matched
by a branch (including `CANCELLED → DRAFT`) runs no requirement loop at
all, so it leaves the inventory rows untouched and in particular cannot
throw on a `none` requirement key. -/
def applyTransitionEffects (items : List InventoryItem)
    (reqs : List (Option Nat × ℚ)) (currentStatus newStatus : OrderStatus) :
    Option (List InventoryItem) :=
  if currentStatus = .DRAFT ∧ newStatus = .IN_PROGRESS then
    runRequirements reserveForRequirement items reqs
  else if currentStatus = .IN_PROGRESS ∧ newStatus = .COMPLETED then
    runRequirements consumeForRequirement items reqs
  else if currentStatus = .IN_PROGRESS ∧
      (newStatus = .DRAFT ∨ newStatus = .CANCELLED) then
    runRequirements releaseForRequirement items reqs
  else if currentStatus = .COMPLETED ∧ newStatus = .IN_PROGRESS then
    runRequirements reserveForRequirement items reqs
  else
    some items

/-- `updateOrderStatus` from `orders.ts`: validate the transition (with the
unconditional `CANCELLED` override), run the matching inventory side effect
and the status write in one transaction; a rejected transition returns the
descriptive error before anything is written.  If the side effect throws
(a `none` requirement key reaching `findUnique({ where: { id: null } })`),
the transaction rolls back and the outer `catch` returns the generic
failure message, leaving the database unchanged. -/
def updateOrderStatus (db : DB) (orderId : Nat) (newStatus : OrderStatus) :
    Except String DB :=
  match findOrder db.orders orderId with
  | none => .error "Objednávka nenalezena"
  | some existingOrder =>
    let currentStatus := existingOrder.status
    if newStatus = .CANCELLED ∨ newStatus ∈ allowedTransitions currentStatus then
      let reqs := buildRequirements existingOrder
      match applyTransitionEffects db.inv.items reqs currentStatus newStatus with
      | none => .error "Nepodařilo se aktualizovat status objednávky"
      | some items1 =>
        let orders1 := db.orders.map
          (fun o => if o.id = orderId then { o with status := newStatus } else o)
        .ok { orders := orders1, inv := { db.inv with items := items1 } }
    else
      .error ("Nelze změnit status z " ++ statusName currentStatus ++
        " na " ++ statusName newStatus)

/-- The persisted state after a call to `updateOrderStatus`: an error return
happens before the transaction, so it leaves the database unchanged. -/
def runUpdateOrderStatus (db : DB) (orderId : Nat) (newStatus : OrderStatus) :
    DB :=
  match updateOrderStatus db orderId newStatus with
  | .ok db' => db'
  | .error _ => db

/-- `ItemDefinitionCategory` enum of the Prisma schema. -/
inductive ItemCategory where
  | SHEET_MATERIAL
  | COMPONENT
  | OTHER
deriving DecidableEq, Repr

/-- `MaterialAvailabilityStatus` from `src/lib/types/order-material.ts`. -/
inductive MaterialAvailabilityStatus where
  | ready
  | cut_needed
  | missing
deriving DecidableEq, Repr

/-- One recipe line of a product as read by the availability check: the
catalog definition it references (`none` for a pure-legacy line, which the
check skips), the definition's name and category, the per-product quantity
and the optional required dimensions. -/
structure RecipeLine where
  itemDefinitionId : Option Nat
  definitionName : String
  category : ItemCategory
  quantity : ℚ
  width : Option ℚ
  height : Option ℚ
deriving DecidableEq, Repr

/-- One order line with its product's recipe, as the availability check
loads it. -/
structure OrderLine where
  quantity : Nat
  recipe : List RecipeLine
deriving DecidableEq, Repr

/-- The grouping key of the availability aggregation:
`(definitionId, requiredWidth, requiredHeight)`. -/
structure GroupKey where
  itemDefinitionId : Nat
  width : Option ℚ
  height : Option ℚ
deriving DecidableEq, Repr

/-- The data accumulated for one group: name and category (from the first
contributing line) and the summed required quantity. -/
structure GroupData where
  definitionName : String
  category : ItemCategory
  quantityRequired : ℚ
deriving DecidableEq, Repr

/-- `MaterialRequirement` from `src/lib/types/order-material.ts`. -/
structure MaterialRequirement where
  itemDefinitionId : Nat
  definitionName : String
  category : ItemCategory
  quantityRequired : ℚ
  width : Option ℚ
  height : Option ℚ
  status : MaterialAvailabilityStatus
  exactCount : Nat
  largerCount : Nat
deriving DecidableEq, Repr

/-- Insert-or-add on the group association list: an existing key keeps its
insertion position and accumulates the quantity; a new key is appended. -/
def upsertGroup (m : List (GroupKey × GroupData)) (k : GroupKey)
    (d : GroupData) : List (GroupKey × GroupData) :=
  match m with
  | [] => [(k, d)]
  | (k', d') :: rest =>
      if k' = k then
        (k', { d' with quantityRequired := d'.quantityRequired + d.quantityRequired }) :: rest
      else (k', d') :: upsertGroup rest k d

/-- Modelled from the spec: the `(key, contribution)` pairs of the Material
Requirement Aggregator (spec §4.5 steps 1–2) — for each (order line, recipe
line) pair with a non-null catalog reference,
`requiredQty = orderLine.quantity × recipeLine.quantity` keyed by
`(definitionId, requiredWidth, requiredHeight)`; lines without a catalog
reference are skipped. -/
def requirementContributions (lines : List OrderLine) :
    List (GroupKey × GroupData) :=
  lines.flatMap (fun ol =>
    ol.recipe.filterMap (fun rl =>
      rl.itemDefinitionId.map (fun defId =>
        (⟨defId, rl.width, rl.height⟩,
         ⟨rl.definitionName, rl.category, rl.quantity * (ol.quantity : ℚ)⟩))))

/-- Modelled from the spec: the requirement-aggregation step of the Material
Requirement Aggregator (spec §4.5 step 3).  The server action
`getOrderMaterialAvailability` is not present under `src/` — only its result
type (`src/lib/types/order-material.ts`), its UI callers and the plan
documents are — so the aggregation is modelled from the spec's words: the
contributions are grouped by their `(definitionId, width, height)` key with
quantities summed within each group. -/
def aggregateRequirements (lines : List OrderLine) :
    List (GroupKey × GroupData) :=
  (requirementContributions lines).foldl
    (fun acc kd => upsertGroup acc kd.1 kd.2) []

/-- Modelled from the spec: `exact` stock count for a sheet requirement —
AVAILABLE stock of the definition with exactly the required dimensions. -/
def exactCountFor (stock : List InventoryItem) (defId : Nat) (w h : ℚ) : Nat :=
  (stock.filter (fun it =>
    decide (it.itemDefinitionId = some defId ∧ it.status = .AVAILABLE ∧
      it.width = w ∧ it.height = h))).length

/-- Modelled from the spec: `larger` stock count — AVAILABLE stock of the
definition with both dimensions at least the required ones and not an exact
match. -/
def largerCountFor (stock : List InventoryItem) (defId : Nat) (w h : ℚ) : Nat :=
  (stock.filter (fun it =>
    decide (it.itemDefinitionId = some defId ∧ it.status = .AVAILABLE ∧
      w ≤ it.width ∧ h ≤ it.height ∧ ¬(it.width = w ∧ it.height = h)))).length

/-- Modelled from the spec: plain AVAILABLE stock count of a definition
(used for non-sheet requirements or when dimensions are absent). -/
def plainCountFor (stock : List InventoryItem) (defId : Nat) : Nat :=
  (stock.filter (fun it =>
    decide (it.itemDefinitionId = some defId ∧ it.status = .AVAILABLE))).length

/-- Modelled from the spec: classification of one group (spec §4.5 step 4):
for `SHEET_MATERIAL` with required dimensions, `ready` if
`exact ≥ requiredQty`, else `cut_needed` if `exact + larger > 0`, else
`missing`; otherwise `ready` if the plain count covers the requirement,
else `missing`. -/
def classifyGroup (stock : List InventoryItem) (k : GroupKey) (d : GroupData) :
    MaterialRequirement :=
  match d.category, k.width, k.height with
  | .SHEET_MATERIAL, some w, some h =>
      let exact := exactCountFor stock k.itemDefinitionId w h
      let larger := largerCountFor stock k.itemDefinitionId w h
      let status : MaterialAvailabilityStatus :=
        if d.quantityRequired ≤ (exact : ℚ) then .ready
        else if 0 < exact + larger then .cut_needed
        else .missing
      { itemDefinitionId := k.itemDefinitionId
        definitionName := d.definitionName, category := d.category
        quantityRequired := d.quantityRequired
        width := k.width, height := k.height, status := status
        exactCount := exact, largerCount := larger }
  | _, _, _ =>
      let count := plainCountFor stock k.itemDefinitionId
      let status : MaterialAvailabilityStatus :=
        if d.quantityRequired ≤ (count : ℚ) then .ready else .missing
      { itemDefinitionId := k.itemDefinitionId
        definitionName := d.definitionName, category := d.category
        quantityRequired := d.quantityRequired
        width := k.width, height := k.height, status := status
        exactCount := count, largerCount := 0 }

/-- Modelled from the spec: `getOrderMaterialAvailability` (Material
Requirement Aggregator, spec §4.5) — absent from `src/`; aggregates the
order lines into `(definition, width, height)` groups and classifies each
group against the AVAILABLE stock, returning one `MaterialRequirement` per
group. -/
def getOrderMaterialAvailability (lines : List OrderLine)
    (stock : List InventoryItem) : List MaterialRequirement :=
  (aggregateRequirements lines).map (fun kd => classifyGroup stock kd.1 kd.2)

/-- The persisted state after a call to `cutInventoryItem`: an error return
happens before (or rolls back) the transaction, so it leaves the store
unchanged. -/
def runCutInventoryItem (db : InventoryDB) (inp : CutInput) : InventoryDB :=
  match cutInventoryItem db inp with
  | .ok db' => db'
  | .error _ => db

/-- Statement-side description of the target row an allocation cut is
claimed to create: requested dimensions, thickness and catalog definition
inherited from the source, area-proportional price, AVAILABLE,
`reservedQuantity = 1`, parent = source. -/
def allocTargetRow (src : InventoryItem) (inp : OrderCutInput)
    (freshId : Nat) : InventoryItem :=
  { id := freshId, name := src.name ++ " (Cut)"
    width := inp.targetWidth, height := inp.targetHeight
    thickness := src.thickness
    price := src.price * (inp.targetWidth * inp.targetHeight) /
      (src.width * src.height)
    status := .AVAILABLE, reservedQuantity := 1
    parentId := some inp.sourceItemId
    itemDefinitionId := src.itemDefinitionId, createdAt := freshId }

/-- Statement-side description of the right offcut of an allocation cut:
`(sourceWidth − targetWidth) × sourceHeight`, AVAILABLE, unreserved,
parent = source. -/
def allocRightOffcutRow (src : InventoryItem) (inp : OrderCutInput)
    (freshId : Nat) : InventoryItem :=
  { id := freshId, name := generateRemnantName src.name
    width := src.width - inp.targetWidth, height := src.height
    thickness := src.thickness
    price := src.price * ((src.width - inp.targetWidth) * src.height) /
      (src.width * src.height)
    status := .AVAILABLE, reservedQuantity := 0
    parentId := some inp.sourceItemId
    itemDefinitionId := src.itemDefinitionId, createdAt := freshId }

/-- Statement-side description of the top offcut of an allocation cut:
`targetWidth × (sourceHeight − targetHeight)`, AVAILABLE, unreserved,
parent = source. -/
def allocTopOffcutRow (src : InventoryItem) (inp : OrderCutInput)
    (freshId : Nat) : InventoryItem :=
  { id := freshId, name := generateRemnantName src.name
    width := inp.targetWidth, height := src.height - inp.targetHeight
    thickness := src.thickness
    price := src.price * (inp.targetWidth * (src.height - inp.targetHeight)) /
      (src.width * src.height)
    status := .AVAILABLE, reservedQuantity := 0
    parentId := some inp.sourceItemId
    itemDefinitionId := src.itemDefinitionId, createdAt := freshId }

/-- Per-unit reservation bound: every row's `reservedQuantity` lies in
`[0, 1]`. -/
def rqInRange (items : List InventoryItem) : Prop :=
  ∀ it ∈ items, 0 ≤ it.reservedQuantity ∧ it.reservedQuantity ≤ 1

/-- The AVAILABLE rows of one `(definition, width, height)` stock group. -/
def groupItems (items : List InventoryItem) (defId : Option Nat) (w h : ℚ) :
    List InventoryItem :=
  items.filter (fun it =>
    decide (it.itemDefinitionId = defId ∧ it.width = w ∧ it.height = h ∧
      it.status = .AVAILABLE))

/-- Total reserved quantity over the AVAILABLE rows of a stock group. -/
def groupReservedSum (items : List InventoryItem) (defId : Option Nat)
    (w h : ℚ) : ℚ :=
  ((groupItems items defId w h).map (fun it => it.reservedQuantity)).sum

/-- Number of AVAILABLE rows of a stock group. -/
def groupAvailableCount (items : List InventoryItem) (defId : Option Nat)
    (w h : ℚ) : Nat :=
  (groupItems items defId w h).length

/-- Erase the catalog link of a stock unit (used to state that the status
machine's matching never consults `itemDefinitionId`). -/
def stripItemDef (it : InventoryItem) : InventoryItem :=
  { it with itemDefinitionId := none }

/-- Erase the catalog link of a recipe row. -/
def stripIngredientDef (ing : Ingredient) : Ingredient :=
  { ing with itemDefinitionId := none }

/-- Erase every catalog link reachable from an order. -/
def stripOrderDefs (o : Order) : Order :=
  { o with items := o.items.map (fun oi =>
      { oi with ingredients := oi.ingredients.map stripIngredientDef }) }

/-- Erase every catalog link in the database. -/
def stripDBDefs (db : DB) : DB :=
  { orders := db.orders.map stripOrderDefs
    inv := { db.inv with items := db.inv.items.map stripItemDef } }

/-- Fixture: a 1000 × 2000 AVAILABLE board. -/
def exSource : InventoryItem :=
  { id := 0, name := "Deska", width := 1000, height := 2000, thickness := 18
    price := 1000, status := .AVAILABLE, reservedQuantity := 0
    parentId := none, itemDefinitionId := some 5, createdAt := 0 }

/-- Fixture: a store holding just the board. -/
def exDB : InventoryDB := { items := [exSource], nextId := 1 }

/-- Fixture: allocation-cut request for a 500 × 1000 piece with
`quantity = 2`. -/
def exOrderCutInp : OrderCutInput :=
  { sourceItemId := 0, targetWidth := 500, targetHeight := 1000
    quantity := 2, orderId := 77 }

/-- Fixture: the store `performOrderCut exDB exOrderCutInp` produces —
consumed source, one reserved 500 × 1000 target, a 500 × 2000 right offcut
and a 500 × 1000 top offcut. -/
def exOrderCutResult : InventoryDB :=
  { items :=
      [{ exSource with status := .CONSUMED },
       { id := 1, name := "Deska (Cut)", width := 500, height := 1000
         thickness := 18, price := 250, status := .AVAILABLE
         reservedQuantity := 1, parentId := some 0
         itemDefinitionId := some 5, createdAt := 1 },
       { id := 2, name := "Zbytek z Deska", width := 500, height := 2000
         thickness := 18, price := 500, status := .AVAILABLE
         reservedQuantity := 0, parentId := some 0
         itemDefinitionId := some 5, createdAt := 2 },
       { id := 3, name := "Zbytek z Deska", width := 500, height := 1000
         thickness := 18, price := 250, status := .AVAILABLE
         reservedQuantity := 0, parentId := some 0
         itemDefinitionId := some 5, createdAt := 3 }]
    nextId := 4 }

/-- Fixture: a reserved AVAILABLE unit (as the allocation cut creates). -/
def exReservedUnit : InventoryItem :=
  { id := 0, name := "Deska", width := 100, height := 100, thickness := 18
    price := 500, status := .AVAILABLE, reservedQuantity := 1
    parentId := none, itemDefinitionId := none, createdAt := 0 }

/-- Fixture: a store holding just the reserved unit. -/
def exReservedDB : InventoryDB := { items := [exReservedUnit], nextId := 1 }

/-- Fixture: the reserved unit's store after a consume-whole cut. -/
def exConsumedReservedDB : InventoryDB :=
  { items := [{ exReservedUnit with status := .CONSUMED }], nextId := 1 }

/-- Fixture: consume-whole manual cut of the 100 × 100 unit. -/
def exConsumeWholeInp : CutInput :=
  { id := 0, cutWidth := 100, cutHeight := 100, direction := .horizontal
    saveMainRemnant := true, saveSecondaryRemnant := true }

/-- Fixture: a 100 × 100 AVAILABLE unit with no reservation. -/
def exPlainUnit : InventoryItem :=
  { id := 0, name := "Deska", width := 100, height := 100, thickness := 18
    price := 500, status := .AVAILABLE, reservedQuantity := 0
    parentId := none, itemDefinitionId := none, createdAt := 0 }

/-- Fixture: a store holding just the plain 100 × 100 unit. -/
def exPlainDB : InventoryDB := { items := [exPlainUnit], nextId := 1 }

/-- Fixture: a horizontal manual cut 50 wide but 200 tall — taller than the
100-tall source. -/
def exTallCutInp : CutInput :=
  { id := 0, cutWidth := 50, cutHeight := 200, direction := .horizontal
    saveMainRemnant := true, saveSecondaryRemnant := true }

/-- Fixture: the store `cutInventoryItem exPlainDB exTallCutInp` produces —
the over-tall horizontal cut is accepted, the source is consumed and the
50 × 100 main remnant is stored. -/
def exTallCutResult : InventoryDB :=
  { items :=
      [{ exPlainUnit with status := .CONSUMED },
       { id := 1, name := "Zbytek z Deska", width := 50, height := 100
         thickness := 18, price := 250, status := .REMNANT
         reservedQuantity := 0, parentId := some 0
         itemDefinitionId := none, createdAt := 1 }]
    nextId := 2 }

/-- Fixture: a horizontal manual cut 200 wide — wider than the 100-wide
source. -/
def exWideCutInp : CutInput :=
  { id := 0, cutWidth := 200, cutHeight := 50, direction := .horizontal
    saveMainRemnant := true, saveSecondaryRemnant := true }

/-- Fixture: a horizontal 50 × 60 manual cut of the 100 × 100 unit, both
remnants saved. -/
def exSmartCutInp : CutInput :=
  { id := 0, cutWidth := 50, cutHeight := 60, direction := .horizontal
    saveMainRemnant := true, saveSecondaryRemnant := true }

/-- Fixture: the store after the 50 × 60 smart cut — consumed source, a
50 × 100 main remnant (price 250) and a 50 × 40 secondary remnant
(price 100). -/
def exSmartCutResult : InventoryDB :=
  { items :=
      [{ exPlainUnit with status := .CONSUMED },
       { id := 1, name := "Zbytek z Deska", width := 50, height := 100
         thickness := 18, price := 250, status := .REMNANT
         reservedQuantity := 0, parentId := some 0
         itemDefinitionId := none, createdAt := 1 },
       { id := 2, name := "Zbytek z Deska", width := 50, height := 40
         thickness := 18, price := 100, status := .REMNANT
         reservedQuantity := 0, parentId := some 0
         itemDefinitionId := none, createdAt := 2 }]
    nextId := 3 }

/-- Fixture: a recipe row asking for half a unit of stock row 0. -/
def exHalfIngredient : Ingredient :=
  { inventoryItemId := some 0, itemDefinitionId := none, quantity := 1/2 }

/-- Fixture: the single order line of `exHalfOrderDB`. -/
def exHalfOrder : Order :=
  { id := 1, status := .DRAFT
    items := [{ quantity := 1, ingredients := [exHalfIngredient] }] }

/-- Fixture: the database pairing `exHalfOrder` with the plain unit. -/
def exHalfOrderDB : DB :=
  { orders := [exHalfOrder], inv := exPlainDB }

/-- Fixture: reference unit named "X" linked to catalog definition 7 (it is
CONSUMED, so it only supplies the display name for matching). -/
def exRefUnit : InventoryItem :=
  { id := 0, name := "X", width := 100, height := 100, thickness := 18
    price := 500, status := .CONSUMED, reservedQuantity := 0
    parentId := none, itemDefinitionId := some 7, createdAt := 0 }

/-- Fixture: an AVAILABLE unit of the same catalog definition 7 but with a
different display name "Y". -/
def exSameDefUnit : InventoryItem :=
  { id := 1, name := "Y", width := 100, height := 100, thickness := 18
    price := 500, status := .AVAILABLE, reservedQuantity := 0
    parentId := none, itemDefinitionId := some 7, createdAt := 1 }

/-- Fixture: an AVAILABLE unit with the same display name "X" but no
catalog definition. -/
def exSameNameUnit : InventoryItem :=
  { id := 2, name := "X", width := 100, height := 100, thickness := 18
    price := 500, status := .AVAILABLE, reservedQuantity := 0
    parentId := none, itemDefinitionId := none, createdAt := 2 }

/-- Fixture: a catalog-linked recipe row (definition 7) whose legacy stock
reference is unit 0. -/
def exDefIngredient : Ingredient :=
  { inventoryItemId := some 0, itemDefinitionId := some 7, quantity := 1 }

/-- Fixture: the single order line of `exDefOrderDB`. -/
def exDefOrder : Order :=
  { id := 1, status := .DRAFT
    items := [{ quantity := 1, ingredients := [exDefIngredient] }] }

/-- Fixture: the database pairing `exDefOrder` with the three stock units. -/
def exDefOrderDB : DB :=
  { orders := [exDefOrder]
    inv := { items := [exRefUnit, exSameDefUnit, exSameNameUnit], nextId := 3 } }

/-- Fixture: one order line whose recipe needs definition 7 at two
different sizes (500 × 500 and 300 × 300). -/
def exTwoSizeLines : List OrderLine :=
  [{ quantity := 1
     recipe :=
      [{ itemDefinitionId := some 7, definitionName := "Ply18"
         category := .SHEET_MATERIAL, quantity := 1
         width := some 500, height := some 500 },
       { itemDefinitionId := some 7, definitionName := "Ply18"
         category := .SHEET_MATERIAL, quantity := 1
         width := some 300, height := some 300 }] }]

/-- Fixture: one 1000 × 500 AVAILABLE board of definition 7. -/
def exAvailStock : List InventoryItem :=
  [{ id := 0, name := "Ply18", width := 1000, height := 500, thickness := 18
     price := 500, status := .AVAILABLE, reservedQuantity := 0
     parentId := none, itemDefinitionId := some 7, createdAt := 0 }]

/-- Fixture: a definition-based recipe row as the staged `createProduct`
writes it — catalog definition 7, legacy stock reference `null`. -/
def exNullIngredient : Ingredient :=
  { inventoryItemId := none, itemDefinitionId := some 7, quantity := 1 }

/-- Fixture: order 3 already IN_PROGRESS whose product has only the
definition-based recipe row. -/
def exNullOrder : Order :=
  { id := 3, status := .IN_PROGRESS
    items := [{ quantity := 1, ingredients := [exNullIngredient] }] }

/-- Fixture: the database pairing `exNullOrder` with the plain unit. -/
def exNullOrderDB : DB :=
  { orders := [exNullOrder], inv := exPlainDB }

/-- Fixture: order 9 in DRAFT with no items (used by transition-table
witnesses). -/
def exEmptyOrder : Order := { id := 9, status := .DRAFT, items := [] }

/-- Fixture: the database holding just the empty order. -/
def exEmptyOrderDB : DB :=
  { orders := [exEmptyOrder], inv := { items := [], nextId := 0 } }

/-!  ## Theorems  -/

/-- C9: for every manual cut whose dimensions equal the source's, and for
all values of the save flags, the operation marks the source CONSUMED and
creates zero remnant units. -/
theorem manualCut_consume_whole
    (db : InventoryDB) (inp : CutInput) (src : InventoryItem)
    (hfind : findItem db.items inp.id = some src)
    (havail : src.status = .AVAILABLE)
    (hw : inp.cutWidth = src.width) (hh : inp.cutHeight = src.height) :
    cutInventoryItem db inp = .ok { db with items := consumeRow db.items inp.id } ∧
    (consumeRow db.items inp.id).length = db.items.length := by
  constructor
  · unfold cutInventoryItem
    simp only [hfind]
    rw [if_pos havail, if_pos ⟨hw, hh⟩]
  · simp [consumeRow, updateItem]

/-- C9 witness: consuming the whole 100 × 100 reserved unit. -/
theorem manualCut_consume_whole_witness :
    cutInventoryItem exReservedDB exConsumeWholeInp =
      .ok { exReservedDB with items := consumeRow exReservedDB.items exConsumeWholeInp.id } ∧
    (consumeRow exReservedDB.items exConsumeWholeInp.id).length =
      exReservedDB.items.length :=
  manualCut_consume_whole exReservedDB exConsumeWholeInp exReservedUnit
    (by decide) (by decide) (by decide) (by decide)

/-- Helper: the explicit outcome of a successful allocation cut. -/
theorem performOrderCut_eq
    (db : InventoryDB) (inp : OrderCutInput) (src : InventoryItem)
    (hfind : findItem db.items inp.sourceItemId = some src)
    (havail : src.status = .AVAILABLE)
    (hw : inp.targetWidth ≤ src.width) (hh : inp.targetHeight ≤ src.height) :
    performOrderCut db inp = .ok
      { items := consumeRow db.items inp.sourceItemId ++
          [allocTargetRow src inp db.nextId] ++
          (if (10:ℚ) < src.width - inp.targetWidth ∧ (10:ℚ) < src.height then
            [allocRightOffcutRow src inp (db.nextId + 1)] else []) ++
          (if (10:ℚ) < inp.targetWidth ∧ (10:ℚ) < src.height - inp.targetHeight then
            [allocTopOffcutRow src inp (db.nextId + 1 +
              (if (10:ℚ) < src.width - inp.targetWidth ∧ (10:ℚ) < src.height then 1 else 0))]
          else []),
        nextId := db.nextId + 1 +
          (if (10:ℚ) < src.width - inp.targetWidth ∧ (10:ℚ) < src.height then 1 else 0) +
          (if (10:ℚ) < inp.targetWidth ∧ (10:ℚ) < src.height - inp.targetHeight then 1 else 0) } := by
  unfold performOrderCut
  simp only [hfind]
  rw [if_pos havail]
  have hvalid : ¬(src.width < inp.targetWidth ∨ src.height < inp.targetHeight) := by
    push_neg
    exact ⟨hw, hh⟩
  rw [if_neg hvalid]
  by_cases hr : (10:ℚ) < src.width - inp.targetWidth ∧ (10:ℚ) < src.height
  · by_cases ht : (10:ℚ) < inp.targetWidth ∧ (10:ℚ) < src.height - inp.targetHeight
    · simp [isValidOffcut, MIN_OFFCUT_DIMENSION_MM, hr, ht, createItem,
        allocTargetRow, allocRightOffcutRow, allocTopOffcutRow]
    · simp [isValidOffcut, MIN_OFFCUT_DIMENSION_MM, hr, ht, createItem,
        allocTargetRow, allocRightOffcutRow, allocTopOffcutRow]
  · by_cases ht : (10:ℚ) < inp.targetWidth ∧ (10:ℚ) < src.height - inp.targetHeight
    · simp [isValidOffcut, MIN_OFFCUT_DIMENSION_MM, hr, ht, createItem,
        allocTargetRow, allocRightOffcutRow, allocTopOffcutRow]
    · simp [isValidOffcut, MIN_OFFCUT_DIMENSION_MM, hr, ht, createItem,
        allocTargetRow, allocRightOffcutRow, allocTopOffcutRow]

/-- C1: a successful allocation cut consumes the source and appends exactly
one target row — whatever the requested `quantity` — with the requested
dimensions, inherited thickness and catalog definition, area-proportional
price, status AVAILABLE, `reservedQuantity = 1` and parent = source,
followed by the right offcut `(sourceWidth − targetWidth) × sourceHeight`
and the top offcut `targetWidth × (sourceHeight − targetHeight)`, each
present iff both of its dimensions exceed 10 mm. -/
theorem orderCut_one_reserved_target_and_offcuts
    (db : InventoryDB) (inp : OrderCutInput) (src : InventoryItem)
    (hfind : findItem db.items inp.sourceItemId = some src)
    (havail : src.status = .AVAILABLE)
    (hw : inp.targetWidth ≤ src.width) (hh : inp.targetHeight ≤ src.height) :
    performOrderCut db inp = .ok
      { items := consumeRow db.items inp.sourceItemId ++
          [allocTargetRow src inp db.nextId] ++
          (if (10:ℚ) < src.width - inp.targetWidth ∧ (10:ℚ) < src.height then
            [allocRightOffcutRow src inp (db.nextId + 1)] else []) ++
          (if (10:ℚ) < inp.targetWidth ∧ (10:ℚ) < src.height - inp.targetHeight then
            [allocTopOffcutRow src inp (db.nextId + 1 +
              (if (10:ℚ) < src.width - inp.targetWidth ∧ (10:ℚ) < src.height then 1 else 0))]
          else []),
        nextId := db.nextId + 1 +
          (if (10:ℚ) < src.width - inp.targetWidth ∧ (10:ℚ) < src.height then 1 else 0) +
          (if (10:ℚ) < inp.targetWidth ∧ (10:ℚ) < src.height - inp.targetHeight then 1 else 0) } :=
  performOrderCut_eq db inp src hfind havail hw hh

/-- C1 witness: allocating a 500 × 1000 piece (quantity 2 requested) from
the 1000 × 2000 board produces the consumed source, one reserved target and
both offcuts. -/
theorem orderCut_one_reserved_target_and_offcuts_witness :
    performOrderCut exDB exOrderCutInp = .ok exOrderCutResult := by
  rw [orderCut_one_reserved_target_and_offcuts exDB exOrderCutInp exSource
    (by decide) (by decide) (by decide) (by decide)]
  simp only [Except.ok.injEq]
  norm_num [exSource, exOrderCutInp, exDB, exOrderCutResult, allocTargetRow,
    allocRightOffcutRow, allocTopOffcutRow, consumeRow, updateItem,
    generateRemnantName]
  exact ⟨rfl, rfl⟩

/-- C6 counterexample: a horizontal manual cut whose `cutHeight` (200)
exceeds the source's height (100) is not rejected — it succeeds and changes
the store, contradicting the claim that both dimensions are validated
regardless of direction. -/
theorem manualCut_oversize_height_accepted :
    cutInventoryItem exPlainDB exTallCutInp = .ok exTallCutResult ∧
    exPlainUnit.height < exTallCutInp.cutHeight ∧
    exTallCutResult ≠ exPlainDB := by
  refine ⟨?_, by decide, by decide⟩
  unfold cutInventoryItem findItem
  norm_num [exPlainDB, exPlainUnit, exTallCutInp, executeCutTransaction,
    createItem, consumeRow, updateItem, remnantRow, generateRemnantName,
    exTallCutResult]
  rfl

/-- C6 (amended): the manual cut validates only the dimension relevant to
the chosen direction — a horizontal cut is rejected (with the store left
unchanged) iff `cutWidth` exceeds the source's width, a vertical cut iff
`cutHeight` exceeds its height. -/
theorem manualCut_per_direction_validation
    (db : InventoryDB) (inp : CutInput) (src : InventoryItem)
    (hfind : findItem db.items inp.id = some src)
    (havail : src.status = .AVAILABLE)
    (hnw : ¬(inp.cutWidth = src.width ∧ inp.cutHeight = src.height)) :
    (inp.direction = .horizontal → src.width < inp.cutWidth →
      cutInventoryItem db inp =
        .error "Šířka řezu nesmí být větší než šířka původní položky" ∧
      runCutInventoryItem db inp = db) ∧
    (inp.direction = .vertical → src.height < inp.cutHeight →
      cutInventoryItem db inp =
        .error "Výška řezu nesmí být větší než výška původní položky" ∧
      runCutInventoryItem db inp = db) := by
  constructor
  · intro hdir hgt
    have herr : cutInventoryItem db inp =
        .error "Šířka řezu nesmí být větší než šířka původní položky" := by
      unfold cutInventoryItem
      simp only [hfind, hdir]
      rw [if_pos havail, if_neg hnw, if_pos hgt]
    refine ⟨herr, ?_⟩
    unfold runCutInventoryItem
    rw [herr]
  · intro hdir hgt
    have herr : cutInventoryItem db inp =
        .error "Výška řezu nesmí být větší než výška původní položky" := by
      unfold cutInventoryItem
      simp only [hfind, hdir]
      rw [if_pos havail, if_neg hnw, if_pos hgt]
    refine ⟨herr, ?_⟩
    unfold runCutInventoryItem
    rw [herr]

/-- C6 witness: an over-wide horizontal cut (200 from a 100-wide source) is
rejected with the validation error and the store is unchanged. -/
theorem manualCut_per_direction_validation_witness :
    cutInventoryItem exPlainDB exWideCutInp =
      .error "Šířka řezu nesmí být větší než šířka původní položky" ∧
    runCutInventoryItem exPlainDB exWideCutInp = exPlainDB :=
  (manualCut_per_direction_validation exPlainDB exWideCutInp exPlainUnit
    (by decide) (by decide) (by decide)).1 rfl (by decide)

/-- C2 counterexample: a reserved AVAILABLE unit consumed whole by a manual
cut keeps `reservedQuantity = 1` while its status is CONSUMED, contradicting
the claim that `reservedQuantity` is nonzero only while the unit is
AVAILABLE. -/
theorem consumed_unit_keeps_reservation :
    cutInventoryItem exReservedDB exConsumeWholeInp =
      .ok { items := [{ exReservedUnit with status := .CONSUMED }], nextId := 1 } ∧
    ({ exReservedUnit with status := .CONSUMED }).reservedQuantity ≠ 0 ∧
    ({ exReservedUnit with status := .CONSUMED }).status ≠ .AVAILABLE := by
  refine ⟨?_, by decide, by decide⟩
  unfold cutInventoryItem findItem
  norm_num [exReservedDB, exReservedUnit, exConsumeWholeInp, consumeRow,
    updateItem]

/-- Helper: updating one id leaves lookups of other ids unchanged (for
id-preserving updates). -/
theorem findItem_updateItem_ne (items : List InventoryItem) (i j : Nat)
    (f : InventoryItem → InventoryItem) (hf : ∀ it, (f it).id = it.id)
    (hij : i ≠ j) :
    findItem (updateItem items i f) j = findItem items j := by
  have hid : ∀ b : InventoryItem, (if b.id = i then f b else b).id = b.id := by
    intro b
    by_cases hb : b.id = i
    · rw [if_pos hb, hf]
    · rw [if_neg hb]
  induction items with
  | nil => rfl
  | cons a rest ih =>
    unfold findItem updateItem at ih ⊢
    simp only [List.map_cons]
    by_cases haj : a.id = j
    · rw [List.find?_cons_of_pos _ (by rw [hid]; simp [haj]),
        List.find?_cons_of_pos _ (by simp [haj])]
      have ha : ¬ a.id = i := fun h => hij (h ▸ haj)
      rw [if_neg ha]
    · rw [List.find?_cons_of_neg _ (by rw [hid]; simp [haj]),
        List.find?_cons_of_neg _ (by simp [haj])]
      exact ih

/-- Helper: looking up the updated id returns the updated row (for
id-preserving updates). -/
theorem findItem_updateItem_self (items : List InventoryItem) (i : Nat)
    (f : InventoryItem → InventoryItem) (hf : ∀ it, (f it).id = it.id) :
    findItem (updateItem items i f) i = (findItem items i).map f := by
  have hid : ∀ b : InventoryItem, (if b.id = i then f b else b).id = b.id := by
    intro b
    by_cases hb : b.id = i
    · rw [if_pos hb, hf]
    · rw [if_neg hb]
  induction items with
  | nil => rfl
  | cons a rest ih =>
    unfold findItem updateItem at ih ⊢
    simp only [List.map_cons]
    by_cases ha : a.id = i
    · rw [List.find?_cons_of_pos _ (by rw [hid]; simp [ha]),
        List.find?_cons_of_pos _ (by simp [ha])]
      simp [if_pos ha]
    · rw [List.find?_cons_of_neg _ (by rw [hid]; simp [ha]),
        List.find?_cons_of_neg _ (by simp [ha])]
      exact ih

/-- Helper: in a store with no duplicate ids, looking up a member's id
returns that member. -/
theorem findItem_of_mem_nodup (items : List InventoryItem) (u : InventoryItem)
    (hnd : (items.map (fun it => it.id)).Nodup) (hu : u ∈ items) :
    findItem items u.id = some u := by
  induction items with
  | nil => cases hu
  | cons a rest ih =>
    simp only [List.map_cons, List.nodup_cons] at hnd
    rcases List.mem_cons.mp hu with rfl | hu'
    · unfold findItem
      rw [List.find?_cons_of_pos _ (by simp)]
    · have ha : a.id ≠ u.id := by
        intro h
        exact hnd.1 (h ▸ List.mem_map_of_mem (fun it => it.id) hu')
      unfold findItem
      rw [List.find?_cons_of_neg _ (by simp [ha])]
      exact ih hnd.2 hu'

/-- Helper: the reserve loop does not touch rows whose id is not among the
selected rows. -/
theorem reserveLoop_find_notin (items sel : List InventoryItem) (q : ℚ)
    (x : Nat) (hx : ∀ u ∈ sel, u.id ≠ x) :
    findItem (reserveLoop items sel q) x = findItem items x := by
  induction sel generalizing items q with
  | nil => rfl
  | cons s rest ih =>
    unfold reserveLoop
    by_cases hq : q ≤ 0
    · rw [if_pos hq]
    · rw [if_neg hq]
      dsimp only
      rw [ih _ _ (fun u hu => hx u (List.mem_cons_of_mem _ hu))]
      exact findItem_updateItem_ne items s.id x _ (fun it => rfl)
        (hx s (List.mem_cons_self _ _))

/-- Helper: the reserve loop sets the `k`-th selected row's reservation to
`min 1 (qty − k)` while that value is positive and leaves it untouched once
the remaining requirement has run out. -/
theorem reserveLoop_find_get (sel : List InventoryItem) :
    ∀ (items : List InventoryItem) (q : ℚ),
    sel.Pairwise (fun a b => a.id ≠ b.id) →
    (∀ u ∈ sel, findItem items u.id = some u) →
    ∀ k (hk : k < sel.length),
      (0 < q - k → findItem (reserveLoop items sel q) (sel.get ⟨k, hk⟩).id =
        some { sel.get ⟨k, hk⟩ with reservedQuantity := min 1 (q - k) }) ∧
      (q - k ≤ 0 → findItem (reserveLoop items sel q) (sel.get ⟨k, hk⟩).id =
        some (sel.get ⟨k, hk⟩)) := by
  induction sel with
  | nil =>
    intro items q _ _ k hk
    exact absurd hk (Nat.not_lt_zero k)
  | cons s rest ih =>
    intro items q hnd hsel k hk
    have hndr : rest.Pairwise (fun a b => a.id ≠ b.id) :=
      (List.pairwise_cons.mp hnd).2
    have hsne : ∀ u ∈ rest, u.id ≠ s.id := by
      intro u hu h
      exact (List.pairwise_cons.mp hnd).1 u hu h.symm
    match k with
    | 0 =>
      have hget0 : (s :: rest).get ⟨0, hk⟩ = s := rfl
      constructor
      · intro hpos
        have hq : ¬ q ≤ 0 := by
          push_cast at hpos
          intro h
          linarith
        rw [hget0]
        unfold reserveLoop
        rw [if_neg hq]
        dsimp only
        rw [reserveLoop_find_notin _ rest _ s.id hsne]
        rw [findItem_updateItem_self items s.id
          (fun it => { it with reservedQuantity := min 1 q }) (fun it => rfl)]
        rw [hsel s (List.mem_cons_self _ _)]
        push_cast
        norm_num
      · intro hnonpos
        have hq : q ≤ 0 := by
          push_cast at hnonpos
          linarith
        rw [hget0]
        unfold reserveLoop
        rw [if_pos hq]
        exact hsel s (List.mem_cons_self _ _)
    | k' + 1 =>
      have hk' : k' < rest.length := Nat.lt_of_succ_lt_succ hk
      have hgets : (s :: rest).get ⟨k' + 1, hk⟩ = rest.get ⟨k', hk'⟩ := rfl
      by_cases hq : q ≤ 0
      · constructor
        · intro hpos
          refine absurd hq (by push_cast at hpos; intro h; linarith [Nat.cast_nonneg (α := ℚ) k'])
        · intro _
          rw [hgets]
          unfold reserveLoop
          rw [if_pos hq]
          exact hsel _ (List.mem_cons_of_mem _ (rest.get_mem k' hk'))
      · have hsel' : ∀ u ∈ rest,
            findItem (updateItem items s.id
              (fun it => { it with reservedQuantity := min 1 q })) u.id = some u := by
          intro u hu
          rw [findItem_updateItem_ne items s.id u.id
            (fun it => { it with reservedQuantity := min 1 q }) (fun it => rfl)
            (fun h => hsne u hu h.symm)]
          exact hsel u (List.mem_cons_of_mem _ hu)
        have hstep := ih (updateItem items s.id
            (fun it => { it with reservedQuantity := min 1 q }))
          (q - min 1 q) hndr hsel' k' hk'
        constructor
        · intro hpos
          have hq1 : (1:ℚ) < q := by
            push_cast at hpos
            linarith [Nat.cast_nonneg (α := ℚ) k']
          have hmin : min 1 q = 1 := min_eq_left hq1.le
          rw [hgets]
          unfold reserveLoop
          rw [if_neg hq]
          dsimp only
          have heq : q - min 1 q - (k' : ℚ) = q - ((k' : ℚ) + 1) := by
            rw [hmin]
            ring
          have hres := hstep.1 (by
            rw [heq]
            push_cast at hpos ⊢
            linarith)
          rw [heq] at hres
          rw [hres]
          push_cast
          norm_num
        · intro hnonpos
          rw [hgets]
          unfold reserveLoop
          rw [if_neg hq]
          dsimp only
          have hres := hstep.2 (by
            push_cast at hnonpos ⊢
            rcases le_total (1:ℚ) q with h1 | h1
            · rw [min_eq_left h1]
              linarith
            · rw [min_eq_right h1]
              push_neg at hq
              linarith [Nat.cast_nonneg (α := ℚ) k'])
          exact hres

/-- Helper: the status write of `updateOrderStatus` rewrites exactly the
found order. -/
theorem findOrder_map_setStatus (orders : List Order) (oid : Nat)
    (ord : Order) (st : OrderStatus)
    (h : findOrder orders oid = some ord) :
    findOrder (orders.map (fun o => if o.id = oid then { o with status := st } else o)) oid
      = some { ord with status := st } := by
  induction orders with
  | nil => simp [findOrder] at h
  | cons o rest ih =>
    unfold findOrder at h ⊢
    by_cases ho : o.id = oid
    · rw [List.find?_cons_of_pos _ (by simp [ho])] at h
      have hoo : o = ord := by injection h
      subst hoo
      simp only [List.map_cons, if_pos ho]
      rw [List.find?_cons_of_pos _ (by simp [ho])]
    · rw [List.find?_cons_of_neg _ (by simp [ho])] at h
      simp only [List.map_cons, if_neg ho]
      rw [List.find?_cons_of_neg _ (by simp [ho])]
      exact ih h

/-- Helper: a requirement walk whose keys are all non-null never throws. -/
theorem runRequirements_some_of_keys
    (step : List InventoryItem → Nat × ℚ → List InventoryItem)
    (reqs : List (Option Nat × ℚ)) :
    ∀ items, (∀ p ∈ reqs, p.1 ≠ none) →
      ∃ items1, runRequirements step items reqs = some items1 := by
  induction reqs with
  | nil => intro items _; exact ⟨items, rfl⟩
  | cons r rest ih =>
    intro items hkeys
    obtain ⟨k, q⟩ := r
    cases k with
    | none => exact absurd rfl (hkeys (none, q) (List.mem_cons_self _ _))
    | some rid =>
      exact ih (step items (rid, q))
        (fun p hp => hkeys p (List.mem_cons_of_mem _ hp))

/-- Helper: a requirement walk over a list containing a null key reaches the
first such key and throws. -/
theorem runRequirements_none_of_mem
    (step : List InventoryItem → Nat × ℚ → List InventoryItem)
    (reqs : List (Option Nat × ℚ)) :
    ∀ items, (∃ p ∈ reqs, p.1 = none) →
      runRequirements step items reqs = none := by
  induction reqs with
  | nil =>
    intro items h
    rcases h with ⟨p, hp, _⟩
    exact absurd hp (List.not_mem_nil p)
  | cons r rest ih =>
    intro items h
    obtain ⟨k, q⟩ := r
    cases k with
    | none => rfl
    | some rid =>
      refine ih (step items (rid, q)) ?_
      rcases h with ⟨p, hp, hnone⟩
      rcases List.mem_cons.mp hp with rfl | hmem
      · exact Option.noConfusion hnone
      · exact ⟨p, hmem, hnone⟩

/-- C3 counterexample: order 3 exists and is IN_PROGRESS, its product's one
recipe row is definition-based (null legacy stock reference, as the staged
`createProduct` writes it), and the requested transition to CANCELLED does
not succeed: the release branch looks up the null id, which throws, the
transaction rolls back, the call returns the generic failure message and
the persisted status stays IN_PROGRESS — refuting that a transition to
CANCELLED succeeds from every current status. -/
theorem cancel_fails_on_null_reference_ingredient :
    findOrder exNullOrderDB.orders 3 = some exNullOrder ∧
    exNullOrder.status = .IN_PROGRESS ∧
    exNullIngredient.inventoryItemId = none ∧
    updateOrderStatus exNullOrderDB 3 .CANCELLED =
      .error "Nepodařilo se aktualizovat status objednávky" ∧
    runUpdateOrderStatus exNullOrderDB 3 .CANCELLED = exNullOrderDB := by
  have herr : updateOrderStatus exNullOrderDB 3 .CANCELLED =
      .error "Nepodařilo se aktualizovat status objednávky" := by
    unfold updateOrderStatus findOrder
    norm_num [exNullOrderDB, exNullOrder, exNullIngredient, exPlainDB,
      allowedTransitions, applyTransitionEffects, runRequirements,
      buildRequirements, upsertAdd]
  refine ⟨by decide, by decide, by decide, herr, ?_⟩
  unfold runUpdateOrderStatus
  rw [herr]

/-- C3 (amended): a requested transition outside the allowed table whose
target is not CANCELLED is rejected with the descriptive message and leaves
the database unchanged.  A transition to CANCELLED always passes the
validation, and it succeeds from every current status other than
IN_PROGRESS; from IN_PROGRESS it succeeds when every recipe line of the
order carries a non-null legacy stock reference, but fails — rolling the
transaction back, so the status is unchanged — when some required recipe
line's legacy stock reference is null, because the release branch then
looks up a null id, which throws. -/
theorem statusTransition_table_and_cancel_override
    (db : DB) (oid : Nat) (ord : Order) (target : OrderStatus)
    (hfind : findOrder db.orders oid = some ord) :
    (target ≠ .CANCELLED → target ∉ allowedTransitions ord.status →
      updateOrderStatus db oid target =
        .error ("Nelze změnit status z " ++ statusName ord.status ++
          " na " ++ statusName target) ∧
      runUpdateOrderStatus db oid target = db) ∧
    (target = .CANCELLED → ord.status ≠ .IN_PROGRESS →
      (updateOrderStatus db oid target).isOk = true ∧
      findOrder (runUpdateOrderStatus db oid target).orders oid =
        some { ord with status := .CANCELLED }) ∧
    (target = .CANCELLED → ord.status = .IN_PROGRESS →
      (∀ p ∈ buildRequirements ord, p.1 ≠ none) →
      (updateOrderStatus db oid target).isOk = true ∧
      findOrder (runUpdateOrderStatus db oid target).orders oid =
        some { ord with status := .CANCELLED }) ∧
    (target = .CANCELLED → ord.status = .IN_PROGRESS →
      (∃ p ∈ buildRequirements ord, p.1 = none) →
      updateOrderStatus db oid target =
        .error "Nepodařilo se aktualizovat status objednávky" ∧
      runUpdateOrderStatus db oid target = db) := by
  refine ⟨?_, ?_, ?_, ?_⟩
  · intro hnc hnott
    have hcond : ¬(target = .CANCELLED ∨ target ∈ allowedTransitions ord.status) := by
      rintro (h | h)
      · exact hnc h
      · exact hnott h
    have herr : updateOrderStatus db oid target =
        .error ("Nelze změnit status z " ++ statusName ord.status ++
          " na " ++ statusName target) := by
      unfold updateOrderStatus
      simp only [hfind]
      rw [if_neg hcond]
    refine ⟨herr, ?_⟩
    unfold runUpdateOrderStatus
    rw [herr]
  · rintro rfl hnotip
    have happ : applyTransitionEffects db.inv.items (buildRequirements ord)
        ord.status .CANCELLED = some db.inv.items := by
      cases hs : ord.status with
      | DRAFT => simp [applyTransitionEffects]
      | IN_PROGRESS => exact absurd hs hnotip
      | COMPLETED => simp [applyTransitionEffects]
      | CANCELLED => simp [applyTransitionEffects]
    have hok : updateOrderStatus db oid .CANCELLED = .ok
        { orders := db.orders.map
            (fun o => if o.id = oid then { o with status := .CANCELLED } else o),
          inv := { db.inv with items := db.inv.items } } := by
      unfold updateOrderStatus
      simp only [hfind]
      rw [if_pos (Or.inl trivial)]
      rw [happ]
    constructor
    · rw [hok]
      rfl
    · unfold runUpdateOrderStatus
      rw [hok]
      exact findOrder_map_setStatus db.orders oid ord .CANCELLED hfind
  · rintro rfl hip hkeys
    obtain ⟨items1, heff⟩ := runRequirements_some_of_keys releaseForRequirement
      (buildRequirements ord) db.inv.items hkeys
    have happ : applyTransitionEffects db.inv.items (buildRequirements ord)
        ord.status .CANCELLED = some items1 := by
      rw [hip]
      simp only [applyTransitionEffects]
      simpa using heff
    have hok : updateOrderStatus db oid .CANCELLED = .ok
        { orders := db.orders.map
            (fun o => if o.id = oid then { o with status := .CANCELLED } else o),
          inv := { db.inv with items := items1 } } := by
      unfold updateOrderStatus
      simp only [hfind]
      rw [if_pos (Or.inl trivial)]
      rw [happ]
    constructor
    · rw [hok]
      rfl
    · unfold runUpdateOrderStatus
      rw [hok]
      exact findOrder_map_setStatus db.orders oid ord .CANCELLED hfind
  · rintro rfl hip hnull
    have happ : applyTransitionEffects db.inv.items (buildRequirements ord)
        ord.status .CANCELLED = none := by
      rw [hip]
      simp only [applyTransitionEffects]
      simpa using runRequirements_none_of_mem releaseForRequirement
        (buildRequirements ord) db.inv.items hnull
    have herr : updateOrderStatus db oid .CANCELLED =
        .error "Nepodařilo se aktualizovat status objednávky" := by
      unfold updateOrderStatus
      simp only [hfind]
      rw [if_pos (Or.inl trivial)]
      rw [happ]
    refine ⟨herr, ?_⟩
    unfold runUpdateOrderStatus
    rw [herr]

/-- C3 witness: for the empty DRAFT order, DRAFT → COMPLETED is rejected
with the descriptive error and the database is unchanged, and
DRAFT → CANCELLED succeeds and persists CANCELLED; for the IN_PROGRESS
order whose recipe row has a null stock reference, the CANCELLED request
fails with the generic message and the database is unchanged. -/
theorem statusTransition_table_and_cancel_override_witness :
    (updateOrderStatus exEmptyOrderDB 9 .COMPLETED =
      .error ("Nelze změnit status z " ++ statusName .DRAFT ++
        " na " ++ statusName .COMPLETED) ∧
     runUpdateOrderStatus exEmptyOrderDB 9 .COMPLETED = exEmptyOrderDB) ∧
    ((updateOrderStatus exEmptyOrderDB 9 .CANCELLED).isOk = true ∧
     findOrder (runUpdateOrderStatus exEmptyOrderDB 9 .CANCELLED).orders 9 =
       some { exEmptyOrder with status := .CANCELLED }) ∧
    (updateOrderStatus exNullOrderDB 3 .CANCELLED =
      .error "Nepodařilo se aktualizovat status objednávky" ∧
     runUpdateOrderStatus exNullOrderDB 3 .CANCELLED = exNullOrderDB) :=
  ⟨(statusTransition_table_and_cancel_override exEmptyOrderDB 9 exEmptyOrder
      .COMPLETED (by decide)).1 (by decide) (by decide),
   (statusTransition_table_and_cancel_override exEmptyOrderDB 9 exEmptyOrder
      .CANCELLED (by decide)).2.1 rfl (by decide),
   (statusTransition_table_and_cancel_override exNullOrderDB 3 exNullOrder
      .CANCELLED (by decide)).2.2.2 rfl rfl
     ⟨(none, 1 * (1 : ℚ)), by
        norm_num [buildRequirements, exNullOrder, exNullIngredient, upsertAdd],
      rfl⟩⟩

/-- C10: the transitions DRAFT → CANCELLED, COMPLETED → CANCELLED,
CANCELLED → DRAFT and CANCELLED → CANCELLED write only the order's status
and touch no inventory row. -/
theorem statusTransition_no_inventory_effect
    (db : DB) (oid : Nat) (ord : Order) (target : OrderStatus)
    (hfind : findOrder db.orders oid = some ord)
    (hpair : (ord.status, target) ∈
      [(OrderStatus.DRAFT, OrderStatus.CANCELLED),
       (OrderStatus.COMPLETED, OrderStatus.CANCELLED),
       (OrderStatus.CANCELLED, OrderStatus.DRAFT),
       (OrderStatus.CANCELLED, OrderStatus.CANCELLED)]) :
    updateOrderStatus db oid target = .ok
      { orders := db.orders.map
          (fun o => if o.id = oid then { o with status := target } else o),
        inv := db.inv } := by
  simp only [List.mem_cons, List.mem_singleton, Prod.mk.injEq,
    List.not_mem_nil, or_false] at hpair
  have hmain : ∀ hcond : target = .CANCELLED ∨ target ∈ allowedTransitions ord.status,
      applyTransitionEffects db.inv.items (buildRequirements ord) ord.status target
        = some db.inv.items →
      updateOrderStatus db oid target = .ok
        { orders := db.orders.map
            (fun o => if o.id = oid then { o with status := target } else o),
          inv := db.inv } := by
    intro hcond heff
    unfold updateOrderStatus
    simp only [hfind]
    rw [if_pos hcond]
    rw [heff]
  rcases hpair with ⟨h1, h2⟩ | ⟨h1, h2⟩ | ⟨h1, h2⟩ | ⟨h1, h2⟩ <;>
    subst h2 <;>
    refine hmain ?_ ?_ <;>
    simp [h1, allowedTransitions, applyTransitionEffects]

/-- C10 witness: cancelling the empty DRAFT order rewrites only its
status. -/
theorem statusTransition_no_inventory_effect_witness :
    updateOrderStatus exEmptyOrderDB 9 .CANCELLED = .ok
      { orders := exEmptyOrderDB.orders.map
          (fun o => if o.id = 9 then { o with status := .CANCELLED } else o),
        inv := exEmptyOrderDB.inv } :=
  statusTransition_no_inventory_effect exEmptyOrderDB 9 exEmptyOrder
    .CANCELLED (by decide) (by decide)

/-- C4 counterexample: with a fractional requirement (half a unit), the
reserve step sets the selected unit's `reservedQuantity` to 1/2, not to 1 as
the claim states. -/
theorem reserve_sets_fractional_quantity :
    updateOrderStatus exHalfOrderDB 1 .IN_PROGRESS = .ok
      { orders := [{ exHalfOrder with status := .IN_PROGRESS }],
        inv := { items := [{ exPlainUnit with reservedQuantity := 1/2 }], nextId := 1 } } ∧
    ((1:ℚ)/2) ≠ 1 := by
  refine ⟨?_, by norm_num⟩
  have hceil : (⌈(1/2 : ℚ)⌉).toNat = 1 := by
    have hc : ⌈(1/2 : ℚ)⌉ = 1 := by
      rw [Int.ceil_eq_iff]
      norm_num
    rw [hc]
    rfl
  unfold updateOrderStatus findOrder
  norm_num [exHalfOrderDB, exHalfOrder, exHalfIngredient, exPlainDB,
    exPlainUnit, allowedTransitions, applyTransitionEffects, runRequirements,
    buildRequirements, upsertAdd, reserveForRequirement, reserveSelection,
    reserveLoop, findItem, updateItem, hceil]

/-- C4 (amended): on DRAFT → IN_PROGRESS the inventory effect is the
reserve walk over the requirements, and the transition succeeds — even when
reservations cannot cover the requirements — with the order set to
IN_PROGRESS, provided every recipe line carries a non-null legacy stock
reference; when some required recipe line's reference is null, the reserve
branch looks up a null id, which throws, and the whole transition fails
with no state change.  For one requirement the machine selects at most
`ceil(requiredQty)` AVAILABLE rows with `reservedQuantity = 0` matching the
reference row's name, oldest first, and sets the k-th selected row's
`reservedQuantity` to `min 1 (requiredQty − k)` — 1 except possibly for the
last reserved row — until the requirement is exhausted, leaving later
selected rows untouched. -/
theorem draft_to_in_progress_reserves
    (db : DB) (oid : Nat) (ord : Order)
    (hfind : findOrder db.orders oid = some ord)
    (hdraft : ord.status = .DRAFT) :
    (∀ items1, runRequirements reserveForRequirement db.inv.items
        (buildRequirements ord) = some items1 →
      updateOrderStatus db oid .IN_PROGRESS = .ok
        { orders := db.orders.map (fun o => if o.id = oid then { o with status := .IN_PROGRESS } else o),
          inv := { db.inv with items := items1 } }) ∧
    ((∀ p ∈ buildRequirements ord, p.1 ≠ none) →
      (runRequirements reserveForRequirement db.inv.items
        (buildRequirements ord)).isSome = true) ∧
    ((∃ p ∈ buildRequirements ord, p.1 = none) →
      updateOrderStatus db oid .IN_PROGRESS =
        .error "Nepodařilo se aktualizovat status objednávky" ∧
      runUpdateOrderStatus db oid .IN_PROGRESS = db) ∧
    (∀ items rid (qty : ℚ) ref, findItem items rid = some ref →
      reserveForRequirement items (rid, qty) =
        reserveLoop items (reserveSelection items ref.name qty) qty ∧
      (reserveSelection items ref.name qty).length ≤ ⌈qty⌉.toNat ∧
      (∀ u ∈ reserveSelection items ref.name qty,
        u.name = ref.name ∧ u.status = .AVAILABLE ∧ u.reservedQuantity = 0) ∧
      (List.Sorted (fun a b => a.createdAt ≤ b.createdAt) items →
        List.Sorted (fun a b => a.createdAt ≤ b.createdAt)
          (reserveSelection items ref.name qty)) ∧
      ((items.map (fun it => it.id)).Nodup →
        ∀ k (hk : k < (reserveSelection items ref.name qty).length),
          (0 < qty - k →
            findItem (reserveForRequirement items (rid, qty))
                ((reserveSelection items ref.name qty).get ⟨k, hk⟩).id =
              some { (reserveSelection items ref.name qty).get ⟨k, hk⟩ with
                reservedQuantity := min 1 (qty - k) }) ∧
          (qty - k ≤ 0 →
            findItem (reserveForRequirement items (rid, qty))
                ((reserveSelection items ref.name qty).get ⟨k, hk⟩).id =
              some ((reserveSelection items ref.name qty).get ⟨k, hk⟩)))) := by
  refine ⟨?_, ?_, ?_, ?_⟩
  · intro items1 heff
    have happ : applyTransitionEffects db.inv.items (buildRequirements ord)
        ord.status .IN_PROGRESS = some items1 := by
      rw [hdraft]
      simp only [applyTransitionEffects]
      simpa using heff
    unfold updateOrderStatus
    simp only [hfind]
    rw [if_pos (Or.inr (by rw [hdraft]; simp [allowedTransitions]))]
    rw [happ]
  · intro hkeys
    obtain ⟨items1, heff⟩ := runRequirements_some_of_keys reserveForRequirement
      (buildRequirements ord) db.inv.items hkeys
    rw [heff]
    rfl
  · intro hnull
    have happ : applyTransitionEffects db.inv.items (buildRequirements ord)
        ord.status .IN_PROGRESS = none := by
      rw [hdraft]
      simp only [applyTransitionEffects]
      simpa using runRequirements_none_of_mem reserveForRequirement
        (buildRequirements ord) db.inv.items hnull
    have herr : updateOrderStatus db oid .IN_PROGRESS =
        .error "Nepodařilo se aktualizovat status objednávky" := by
      unfold updateOrderStatus
      simp only [hfind]
      rw [if_pos (Or.inr (by rw [hdraft]; simp [allowedTransitions]))]
      rw [happ]
    refine ⟨herr, ?_⟩
    unfold runUpdateOrderStatus
    rw [herr]
  · intro items rid qty ref h
    have hrw : reserveForRequirement items (rid, qty) =
        reserveLoop items (reserveSelection items ref.name qty) qty := by
      unfold reserveForRequirement
      simp only [h]
    refine ⟨hrw, List.length_take_le _ _, ?_, ?_, ?_⟩
    · intro u hu
      have := (List.mem_filter.mp (List.mem_of_mem_take hu)).2
      have hprop := of_decide_eq_true this
      exact ⟨hprop.1, hprop.2.1, hprop.2.2⟩
    · intro hsorted
      exact List.Pairwise.sublist
        (List.Sublist.trans (List.take_sublist _ _) (List.filter_sublist _))
        hsorted
    · intro hnodup k hk
      have hsub : List.Sublist (reserveSelection items ref.name qty) items :=
        List.Sublist.trans (List.take_sublist _ _) (List.filter_sublist _)
      have hndsel : (reserveSelection items ref.name qty).Pairwise
          (fun a b => a.id ≠ b.id) := by
        have hmapnd : ((reserveSelection items ref.name qty).map (fun it => it.id)).Nodup :=
          hnodup.sublist (hsub.map (fun it => it.id))
        exact List.pairwise_map.mp hmapnd
      have hsel : ∀ u ∈ reserveSelection items ref.name qty,
          findItem items u.id = some u := by
        intro u hu
        exact findItem_of_mem_nodup items u hnodup (hsub.subset hu)
      rw [hrw]
      exact reserveLoop_find_get _ items qty hndsel hsel k hk

/-- C4 witness: the DRAFT → IN_PROGRESS transition of the half-unit order
(its one recipe row has a non-null stock reference) succeeds, sets the
order to IN_PROGRESS and leaves the single unit reserved at 1/2. -/
theorem draft_to_in_progress_reserves_witness :
    updateOrderStatus exHalfOrderDB 1 .IN_PROGRESS = .ok
      { orders := exHalfOrderDB.orders.map (fun o => if o.id = 1 then { o with status := .IN_PROGRESS } else o),
        inv := { exHalfOrderDB.inv with items := [{ exPlainUnit with reservedQuantity := 1/2 }] } } :=
  (draft_to_in_progress_reserves exHalfOrderDB 1 exHalfOrder rfl rfl).1
    [{ exPlainUnit with reservedQuantity := 1/2 }]
    (by
      have hceil : (⌈(1/2 : ℚ)⌉).toNat = 1 := by
        have hc : ⌈(1/2 : ℚ)⌉ = 1 := by
          rw [Int.ceil_eq_iff]
          norm_num
        rw [hc]
        rfl
      norm_num [exHalfOrderDB, exHalfOrder, exHalfIngredient, exPlainDB,
        exPlainUnit, runRequirements, buildRequirements, upsertAdd,
        reserveForRequirement, reserveSelection, reserveLoop, findItem,
        updateItem, hceil])

/-- Helper: erasing catalog links commutes with row lookup. -/
theorem findItem_map_strip (items : List InventoryItem) (i : Nat) :
    findItem (items.map stripItemDef) i = (findItem items i).map stripItemDef := by
  unfold findItem
  rw [List.find?_map]
  rfl

/-- Helper: erasing catalog links commutes with a row update that commutes
with it. -/
theorem updateItem_map_strip (items : List InventoryItem) (i : Nat)
    (f : InventoryItem → InventoryItem)
    (hc : ∀ it, stripItemDef (f it) = f (stripItemDef it)) :
    updateItem (items.map stripItemDef) i f =
      (updateItem items i f).map stripItemDef := by
  unfold updateItem
  rw [List.map_map, List.map_map]
  congr 1
  funext it
  simp only [Function.comp_apply]
  by_cases hit : it.id = i
  · rw [if_pos (show (stripItemDef it).id = i from hit), if_pos hit]
    exact (hc it).symm
  · rw [if_neg (show ¬ (stripItemDef it).id = i from hit), if_neg hit]

/-- Helper: erasing catalog links commutes with the reserve loop. -/
theorem reserveLoop_map_strip (sel : List InventoryItem) :
    ∀ (items : List InventoryItem) (q : ℚ),
    reserveLoop (items.map stripItemDef) (sel.map stripItemDef) q =
      (reserveLoop items sel q).map stripItemDef := by
  induction sel with
  | nil => intro items q; rfl
  | cons s rest ih =>
    intro items q
    rw [List.map_cons]
    unfold reserveLoop
    dsimp only
    by_cases hq : q ≤ 0
    · rw [if_pos hq, if_pos hq]
    · rw [if_neg hq, if_neg hq]
      rw [updateItem_map_strip items (stripItemDef s).id
        (fun it => { it with reservedQuantity := min 1 q }) (fun it => rfl)]
      exact ih _ _

/-- Helper: erasing catalog links commutes with the consume loop. -/
theorem consumeLoop_map_strip (sel : List InventoryItem) :
    ∀ (items : List InventoryItem) (q : ℚ),
    consumeLoop (items.map stripItemDef) (sel.map stripItemDef) q =
      (consumeLoop items sel q).map stripItemDef := by
  induction sel with
  | nil => intro items q; rfl
  | cons s rest ih =>
    intro items q
    rw [List.map_cons]
    unfold consumeLoop
    dsimp only
    by_cases hq : q ≤ 0
    · rw [if_pos hq, if_pos hq]
    · rw [if_neg hq, if_neg hq]
      rw [updateItem_map_strip items (stripItemDef s).id
        (fun it => { it with reservedQuantity := 0, status := .CONSUMED }) (fun it => rfl)]
      exact ih _ _

/-- Helper: erasing catalog links commutes with the release loop. -/
theorem releaseLoop_map_strip (sel : List InventoryItem) :
    ∀ (items : List InventoryItem) (q : ℚ),
    releaseLoop (items.map stripItemDef) (sel.map stripItemDef) q =
      (releaseLoop items sel q).map stripItemDef := by
  induction sel with
  | nil => intro items q; rfl
  | cons s rest ih =>
    intro items q
    rw [List.map_cons]
    unfold releaseLoop
    dsimp only
    by_cases hq : q ≤ 0
    · rw [if_pos hq, if_pos hq]
    · rw [if_neg hq, if_neg hq]
      rw [updateItem_map_strip items (stripItemDef s).id
        (fun it => { it with reservedQuantity := max 0 ((stripItemDef s).reservedQuantity - min (stripItemDef s).reservedQuantity q) })
        (fun it => rfl)]
      exact ih _ _

/-- Helper: the reserve selection ignores catalog links. -/
theorem reserveSelection_map_strip (items : List InventoryItem) (n : String)
    (qty : ℚ) :
    reserveSelection (items.map stripItemDef) n qty =
      (reserveSelection items n qty).map stripItemDef := by
  unfold reserveSelection
  rw [List.filter_map, List.map_take]
  rfl

/-- Helper: the consume/release selection ignores catalog links. -/
theorem reservedSelection_map_strip (items : List InventoryItem) (n : String)
    (qty : ℚ) :
    reservedSelection (items.map stripItemDef) n qty =
      (reservedSelection items n qty).map stripItemDef := by
  unfold reservedSelection
  rw [List.filter_map, List.map_take]
  rfl

/-- Helper: the reserve step for one requirement ignores catalog links. -/
theorem reserveForRequirement_map_strip (items : List InventoryItem)
    (req : Nat × ℚ) :
    reserveForRequirement (items.map stripItemDef) req =
      (reserveForRequirement items req).map stripItemDef := by
  unfold reserveForRequirement
  rw [findItem_map_strip]
  cases h : findItem items req.1 with
  | none => rfl
  | some ref =>
    simp only [Option.map_some']
    rw [reserveSelection_map_strip]
    exact reserveLoop_map_strip _ _ _

/-- Helper: the consume step for one requirement ignores catalog links. -/
theorem consumeForRequirement_map_strip (items : List InventoryItem)
    (req : Nat × ℚ) :
    consumeForRequirement (items.map stripItemDef) req =
      (consumeForRequirement items req).map stripItemDef := by
  unfold consumeForRequirement
  rw [findItem_map_strip]
  cases h : findItem items req.1 with
  | none => rfl
  | some ref =>
    simp only [Option.map_some']
    rw [reservedSelection_map_strip]
    exact consumeLoop_map_strip _ _ _

/-- Helper: the release step for one requirement ignores catalog links. -/
theorem releaseForRequirement_map_strip (items : List InventoryItem)
    (req : Nat × ℚ) :
    releaseForRequirement (items.map stripItemDef) req =
      (releaseForRequirement items req).map stripItemDef := by
  unfold releaseForRequirement
  rw [findItem_map_strip]
  cases h : findItem items req.1 with
  | none => rfl
  | some ref =>
    simp only [Option.map_some']
    rw [reservedSelection_map_strip]
    exact releaseLoop_map_strip _ _ _

/-- Helper: walking the requirements with a link-insensitive step is
link-insensitive — and it throws on exactly the same null keys, since the
keys are not touched by the stripping. -/
theorem runRequirements_map_strip
    (g : List InventoryItem → Nat × ℚ → List InventoryItem)
    (hg : ∀ items req, g (items.map stripItemDef) req = (g items req).map stripItemDef)
    (reqs : List (Option Nat × ℚ)) :
    ∀ items, runRequirements g (items.map stripItemDef) reqs =
      (runRequirements g items reqs).map (List.map stripItemDef) := by
  induction reqs with
  | nil => intro items; rfl
  | cons r rest ih =>
    intro items
    obtain ⟨k, q⟩ := r
    cases k with
    | none => rfl
    | some rid =>
      show runRequirements g (g (items.map stripItemDef) (rid, q)) rest = _
      rw [hg]
      exact ih _

/-- Helper: the requirements map reads only the legacy stock reference and
quantity, so it ignores catalog links. -/
theorem buildRequirements_strip (ord : Order) :
    buildRequirements (stripOrderDefs ord) = buildRequirements ord := by
  unfold buildRequirements stripOrderDefs
  rw [List.foldl_map]
  congr 1
  funext acc oi
  rw [List.foldl_map]
  rfl

/-- Helper: the inventory side effects of a transition ignore catalog
links. -/
theorem applyTransitionEffects_map_strip (items : List InventoryItem)
    (reqs : List (Option Nat × ℚ)) (cur new : OrderStatus) :
    applyTransitionEffects (items.map stripItemDef) reqs cur new =
      (applyTransitionEffects items reqs cur new).map (List.map stripItemDef) := by
  unfold applyTransitionEffects
  by_cases h1 : cur = .DRAFT ∧ new = .IN_PROGRESS
  · rw [if_pos h1, if_pos h1]
    exact runRequirements_map_strip _ reserveForRequirement_map_strip reqs items
  · rw [if_neg h1, if_neg h1]
    by_cases h2 : cur = .IN_PROGRESS ∧ new = .COMPLETED
    · rw [if_pos h2, if_pos h2]
      exact runRequirements_map_strip _ consumeForRequirement_map_strip reqs items
    · rw [if_neg h2, if_neg h2]
      by_cases h3 : cur = .IN_PROGRESS ∧ (new = .DRAFT ∨ new = .CANCELLED)
      · rw [if_pos h3, if_pos h3]
        exact runRequirements_map_strip _ releaseForRequirement_map_strip reqs items
      · rw [if_neg h3, if_neg h3]
        by_cases h4 : cur = .COMPLETED ∧ new = .IN_PROGRESS
        · rw [if_pos h4, if_pos h4]
          exact runRequirements_map_strip _ reserveForRequirement_map_strip reqs items
        · rw [if_neg h4, if_neg h4]
          rfl

/-- Helper: erasing catalog links commutes with order lookup. -/
theorem findOrder_map_strip (orders : List Order) (i : Nat) :
    findOrder (orders.map stripOrderDefs) i =
      (findOrder orders i).map stripOrderDefs := by
  unfold findOrder
  rw [List.find?_map]
  rfl

/-- C5 counterexample: for a recipe line carrying a catalog link
(definition 7), the reserve step leaves the AVAILABLE unit of the same
definition (but different display name) unreserved and instead reserves the
unit with the matching display name and no catalog definition — matching is
by name even when a catalog link exists. -/
theorem reservation_matches_by_name_despite_catalog_link :
    updateOrderStatus exDefOrderDB 1 .IN_PROGRESS = .ok
      { orders := [{ exDefOrder with status := .IN_PROGRESS }],
        inv := { items := [exRefUnit, exSameDefUnit, { exSameNameUnit with reservedQuantity := 1 }], nextId := 3 } } ∧
    exDefIngredient.itemDefinitionId = some 7 ∧
    exSameDefUnit.itemDefinitionId = some 7 ∧
    exSameDefUnit.status = .AVAILABLE ∧
    exSameDefUnit.reservedQuantity = 0 ∧
    exSameNameUnit.itemDefinitionId = none := by
  refine ⟨?_, by decide, by decide, by decide, by decide, by decide⟩
  have hceil : (⌈(1 : ℚ)⌉).toNat = 1 := by
    rw [Int.ceil_one]
    rfl
  unfold updateOrderStatus findOrder
  norm_num [exDefOrderDB, exDefOrder, exDefIngredient, exRefUnit,
    exSameDefUnit, exSameNameUnit, allowedTransitions,
    applyTransitionEffects, runRequirements, buildRequirements, upsertAdd,
    reserveForRequirement, reserveSelection, reserveLoop, findItem,
    updateItem, hceil]

/-- C5 (amended): the status machine's reservation/consumption/release
bookkeeping keys each requirement by the recipe line's legacy stock-unit
reference and matches stock rows purely by that unit's display name; the
catalog-definition id is never consulted — erasing every catalog link from
the database changes nothing about the outcome of any status transition. -/
theorem reservation_matching_is_name_based
    (db : DB) (oid : Nat) (newStatus : OrderStatus) :
    (∀ items rid (qty : ℚ) ref, findItem items rid = some ref →
      reserveForRequirement items (rid, qty) =
        reserveLoop items (reserveSelection items ref.name qty) qty ∧
      consumeForRequirement items (rid, qty) =
        consumeLoop items (reservedSelection items ref.name qty) qty ∧
      releaseForRequirement items (rid, qty) =
        releaseLoop items (reservedSelection items ref.name qty) qty) ∧
    updateOrderStatus (stripDBDefs db) oid newStatus =
      (updateOrderStatus db oid newStatus).map stripDBDefs := by
  constructor
  · intro items rid qty ref h
    refine ⟨?_, ?_, ?_⟩
    · unfold reserveForRequirement
      simp only [h]
    · unfold consumeForRequirement
      simp only [h]
    · unfold releaseForRequirement
      simp only [h]
  · unfold updateOrderStatus stripDBDefs
    rw [findOrder_map_strip]
    cases h : findOrder db.orders oid with
    | none => rfl
    | some ord =>
      simp only [Option.map_some']
      by_cases hcond : newStatus = .CANCELLED ∨ newStatus ∈ allowedTransitions ord.status
      · rw [if_pos hcond, if_pos (show newStatus = .CANCELLED ∨ newStatus ∈ allowedTransitions (stripOrderDefs ord).status from hcond)]
        have hstr : applyTransitionEffects (db.inv.items.map stripItemDef)
            (buildRequirements (stripOrderDefs ord)) (stripOrderDefs ord).status newStatus =
            (applyTransitionEffects db.inv.items (buildRequirements ord)
              ord.status newStatus).map (List.map stripItemDef) := by
          rw [buildRequirements_strip]
          exact applyTransitionEffects_map_strip db.inv.items
            (buildRequirements ord) ord.status newStatus
        rw [hstr]
        cases heff : applyTransitionEffects db.inv.items (buildRequirements ord)
            ord.status newStatus with
        | none => rfl
        | some items1 =>
          simp only [Option.map_some', Except.map]
          congr 1
          congr 1
          rw [List.map_map, List.map_map]
          apply List.map_congr_left
          intro o _
          simp only [Function.comp_apply]
          by_cases ho : o.id = oid
          · rw [if_pos (show (stripOrderDefs o).id = oid from ho), if_pos ho]
            rfl
          · rw [if_neg (show ¬ (stripOrderDefs o).id = oid from ho), if_neg ho]
      · rw [if_neg hcond, if_neg (show ¬ (newStatus = .CANCELLED ∨ newStatus ∈ allowedTransitions (stripOrderDefs ord).status) from hcond)]
        rfl

/-- C5 witness: stripping all catalog links from the definition-linked
fixture database leaves the DRAFT → IN_PROGRESS transition's result
unchanged up to the same stripping. -/
theorem reservation_matching_is_name_based_witness :
    updateOrderStatus (stripDBDefs exDefOrderDB) 1 .IN_PROGRESS =
      (updateOrderStatus exDefOrderDB 1 .IN_PROGRESS).map stripDBDefs :=
  (reservation_matching_is_name_based exDefOrderDB 1 .IN_PROGRESS).2

/-- Helper: an id-targeted update whose result stays in `[0, 1]` preserves
the per-row reservation bound. -/
theorem rqInRange_updateItem (items : List InventoryItem) (i : Nat)
    (f : InventoryItem → InventoryItem) (h : rqInRange items)
    (hf : ∀ it ∈ items, 0 ≤ (f it).reservedQuantity ∧ (f it).reservedQuantity ≤ 1) :
    rqInRange (updateItem items i f) := by
  intro x hx
  rcases List.mem_map.mp hx with ⟨y, hy, rfl⟩
  by_cases hyi : y.id = i
  · rw [if_pos hyi]
    exact hf y hy
  · rw [if_neg hyi]
    exact h y hy

/-- Helper: appending a row with a reservation in `[0, 1]` preserves the
per-row reservation bound. -/
theorem rqInRange_createItem (db : InventoryDB) (mk : Nat → InventoryItem)
    (h : rqInRange db.items)
    (hmk : ∀ n, 0 ≤ (mk n).reservedQuantity ∧ (mk n).reservedQuantity ≤ 1) :
    rqInRange (createItem db mk).items := by
  intro x hx
  rcases List.mem_append.mp hx with hx1 | hx2
  · exact h x hx1
  · rw [List.mem_singleton.mp hx2]
    exact hmk _

/-- Helper: the reserve loop preserves the per-row reservation bound (it
writes `min 1 remaining` with `remaining > 0`). -/
theorem rqInRange_reserveLoop (sel : List InventoryItem) :
    ∀ (items : List InventoryItem) (q : ℚ), rqInRange items →
    rqInRange (reserveLoop items sel q) := by
  induction sel with
  | nil => intro items q h; exact h
  | cons s rest ih =>
    intro items q h
    unfold reserveLoop
    by_cases hq : q ≤ 0
    · rw [if_pos hq]
      exact h
    · rw [if_neg hq]
      push_neg at hq
      refine ih _ _ (rqInRange_updateItem _ _ _ h ?_)
      intro it _
      exact ⟨le_min (by norm_num) hq.le, min_le_left _ _⟩

/-- Helper: the consume loop preserves the per-row reservation bound (it
writes 0). -/
theorem rqInRange_consumeLoop (sel : List InventoryItem) :
    ∀ (items : List InventoryItem) (q : ℚ), rqInRange items →
    rqInRange (consumeLoop items sel q) := by
  induction sel with
  | nil => intro items q h; exact h
  | cons s rest ih =>
    intro items q h
    unfold consumeLoop
    by_cases hq : q ≤ 0
    · rw [if_pos hq]
      exact h
    · rw [if_neg hq]
      refine ih _ _ (rqInRange_updateItem _ _ _ h ?_)
      intro it _
      exact ⟨le_refl 0, by norm_num⟩

/-- Helper: the release loop preserves the per-row reservation bound when
the selected snapshots are themselves bounded. -/
theorem rqInRange_releaseLoop (sel : List InventoryItem) :
    ∀ (items : List InventoryItem) (q : ℚ), rqInRange items →
    (∀ u ∈ sel, 0 ≤ u.reservedQuantity ∧ u.reservedQuantity ≤ 1) →
    rqInRange (releaseLoop items sel q) := by
  induction sel with
  | nil => intro items q h _; exact h
  | cons s rest ih =>
    intro items q h hsel
    unfold releaseLoop
    by_cases hq : q ≤ 0
    · rw [if_pos hq]
      exact h
    · rw [if_neg hq]
      dsimp only
      have hs := hsel s (List.mem_cons_self _ _)
      refine ih _ _ (rqInRange_updateItem _ _ _ h ?_)
        (fun u hu => hsel u (List.mem_cons_of_mem _ hu))
      intro it _
      constructor
      · exact le_max_left 0 _
      · have hmin : 0 ≤ min s.reservedQuantity q := by
          push_neg at hq
          exact le_min hs.1 hq.le
        have : s.reservedQuantity - min s.reservedQuantity q ≤ 1 := by
          linarith [hs.2]
        exact max_le (by norm_num) this

/-- Helper: the reserve step for one requirement preserves the per-row
reservation bound. -/
theorem rqInRange_reserveForRequirement (items : List InventoryItem)
    (req : Nat × ℚ) (h : rqInRange items) :
    rqInRange (reserveForRequirement items req) := by
  unfold reserveForRequirement
  cases findItem items req.1 with
  | none => exact h
  | some ref => exact rqInRange_reserveLoop _ _ _ h

/-- Helper: the consume step for one requirement preserves the per-row
reservation bound. -/
theorem rqInRange_consumeForRequirement (items : List InventoryItem)
    (req : Nat × ℚ) (h : rqInRange items) :
    rqInRange (consumeForRequirement items req) := by
  unfold consumeForRequirement
  cases findItem items req.1 with
  | none => exact h
  | some ref => exact rqInRange_consumeLoop _ _ _ h

/-- Helper: the release step for one requirement preserves the per-row
reservation bound. -/
theorem rqInRange_releaseForRequirement (items : List InventoryItem)
    (req : Nat × ℚ) (h : rqInRange items) :
    rqInRange (releaseForRequirement items req) := by
  unfold releaseForRequirement
  cases findItem items req.1 with
  | none => exact h
  | some ref =>
    refine rqInRange_releaseLoop _ _ _ h ?_
    intro u hu
    exact h u (List.mem_filter.mp (List.mem_of_mem_take hu)).1

/-- Helper: a successful walk of a bound-preserving step over the
requirements preserves the per-row reservation bound. -/
theorem rqInRange_runRequirements
    (g : List InventoryItem → Nat × ℚ → List InventoryItem)
    (hg : ∀ items req, rqInRange items → rqInRange (g items req))
    (reqs : List (Option Nat × ℚ)) :
    ∀ items items1, runRequirements g items reqs = some items1 →
      rqInRange items → rqInRange items1 := by
  induction reqs with
  | nil =>
    intro items items1 heq h
    cases heq
    exact h
  | cons r rest ih =>
    intro items items1 heq h
    obtain ⟨k, q⟩ := r
    cases k with
    | none => exact Option.noConfusion heq
    | some rid => exact ih (g items (rid, q)) items1 heq (hg items (rid, q) h)

/-- Helper: every transition's successful inventory side effect preserves
the per-row reservation bound. -/
theorem rqInRange_applyTransitionEffects (items : List InventoryItem)
    (reqs : List (Option Nat × ℚ)) (cur new : OrderStatus)
    (items1 : List InventoryItem)
    (heq : applyTransitionEffects items reqs cur new = some items1)
    (h : rqInRange items) :
    rqInRange items1 := by
  unfold applyTransitionEffects at heq
  split at heq
  · exact rqInRange_runRequirements _ rqInRange_reserveForRequirement reqs
      items items1 heq h
  · split at heq
    · exact rqInRange_runRequirements _ rqInRange_consumeForRequirement reqs
        items items1 heq h
    · split at heq
      · exact rqInRange_runRequirements _ rqInRange_releaseForRequirement reqs
          items items1 heq h
      · split at heq
        · exact rqInRange_runRequirements _ rqInRange_reserveForRequirement reqs
            items items1 heq h
        · cases heq
          exact h

/-- Helper: bulk creation preserves the per-row reservation bound (created
rows carry `reservedQuantity = 0`). -/
theorem rqInRange_bulkCreate (displayName : String) (defId : Option Nat)
    (inp : AddInput) :
    ∀ n (db : InventoryDB), rqInRange db.items →
    rqInRange (bulkCreate db displayName defId inp n).items := by
  intro n
  induction n with
  | zero => intro db h; exact h
  | succ m ih =>
    intro db h
    unfold bulkCreate
    refine ih _ (rqInRange_createItem _ _ h ?_)
    intro k
    exact ⟨le_refl 0, by norm_num⟩

/-- Helper: rows bounded by 1 sum to at most the row count. -/
theorem sum_rq_le_count (l : List InventoryItem)
    (h : ∀ it ∈ l, it.reservedQuantity ≤ 1) :
    (l.map (fun it => it.reservedQuantity)).sum ≤ (l.length : ℚ) := by
  induction l with
  | nil => simp
  | cons a rest ih =>
    simp only [List.map_cons, List.sum_cons, List.length_cons]
    push_cast
    have ha := h a (List.mem_cons_self _ _)
    have hr := ih (fun it hit => h it (List.mem_cons_of_mem _ hit))
    linarith

/-- Helper: the group accounting inequality follows from the per-row
bound. -/
theorem groupSum_le_of_rqInRange (items : List InventoryItem)
    (h : rqInRange items) (defId : Option Nat) (w hgt : ℚ) :
    groupReservedSum items defId w hgt ≤
      (groupAvailableCount items defId w hgt : ℚ) := by
  unfold groupReservedSum groupAvailableCount
  apply sum_rq_le_count
  intro it hit
  exact (h it (List.mem_filter.mp hit).1).2

/-- Helper: the manual-cut transaction preserves the per-row reservation
bound. -/
theorem rqInRange_executeCutTransaction (db : InventoryDB) (inp : CutInput)
    (orig : InventoryItem) (main : Remnant) (secOpt : Option Remnant)
    (h : rqInRange db.items) :
    rqInRange (executeCutTransaction db inp orig main secOpt).items := by
  unfold executeCutTransaction
  dsimp only
  have h1 : rqInRange (consumeRow db.items inp.id) :=
    rqInRange_updateItem _ _ _ h (fun it hit => h it hit)
  have h2 : ∀ r : Remnant, ∀ dbx : InventoryDB, rqInRange dbx.items →
      rqInRange (createItem dbx (remnantRow orig inp.id r)).items := by
    intro r dbx hx
    refine rqInRange_createItem _ _ hx ?_
    intro n
    exact ⟨le_refl 0, by norm_num [remnantRow]⟩
  cases secOpt with
  | none =>
    dsimp only
    by_cases hm : inp.saveMainRemnant = true
    · rw [if_pos hm]
      exact h2 _ _ h1
    · rw [if_neg hm]
      exact h1
  | some s =>
    dsimp only
    by_cases hm : inp.saveMainRemnant = true
    · rw [if_pos hm]
      by_cases hs : inp.saveSecondaryRemnant = true
      · rw [if_pos hs]
        exact h2 _ _ (h2 _ _ h1)
      · rw [if_neg hs]
        exact h2 _ _ h1
    · rw [if_neg hm]
      by_cases hs : inp.saveSecondaryRemnant = true
      · rw [if_pos hs]
        exact h2 _ _ h1
      · rw [if_neg hs]
        exact h1

/-- Helper: a successful manual cut preserves the per-row reservation
bound. -/
theorem rqInRange_cutInventoryItem (db : InventoryDB) (inp : CutInput)
    (db' : InventoryDB) (h : rqInRange db.items)
    (hok : cutInventoryItem db inp = .ok db') : rqInRange db'.items := by
  unfold cutInventoryItem at hok
  split at hok
  · cases hok
  · split at hok
    · split at hok
      · cases hok
        exact rqInRange_updateItem _ _ _ h (fun it hit => h it hit)
      · split at hok
        · split at hok
          · cases hok
          · cases hok
            exact rqInRange_executeCutTransaction _ _ _ _ _ h
        · split at hok
          · cases hok
          · cases hok
            exact rqInRange_executeCutTransaction _ _ _ _ _ h
    · cases hok

/-- Helper: a successful allocation cut preserves the per-row reservation
bound. -/
theorem rqInRange_performOrderCut (db : InventoryDB) (inp : OrderCutInput)
    (db' : InventoryDB) (h : rqInRange db.items)
    (hok : performOrderCut db inp = .ok db') : rqInRange db'.items := by
  have hstep : ∀ (c : Bool) (x : InventoryDB) (mk : Nat → InventoryItem),
      rqInRange x.items →
      (∀ n, 0 ≤ (mk n).reservedQuantity ∧ (mk n).reservedQuantity ≤ 1) →
      rqInRange (if c = true then createItem x mk else x).items := by
    intro c x mk hx hmk
    by_cases hc : c = true
    · rw [if_pos hc]
      exact rqInRange_createItem x mk hx hmk
    · rw [if_neg hc]
      exact hx
  unfold performOrderCut at hok
  split at hok
  · cases hok
  · split at hok
    · dsimp only at hok
      split at hok
      · cases hok
      · cases hok
        have h1 : rqInRange (consumeRow db.items inp.sourceItemId) :=
          rqInRange_updateItem _ _ _ h (fun it hit => h it hit)
        refine hstep _ _ _ (hstep _ _ _ ?_ ?_) ?_
        · exact rqInRange_createItem
            { items := consumeRow db.items inp.sourceItemId, nextId := db.nextId }
            _ h1 (fun n => ⟨by norm_num, by norm_num⟩)
        · intro n
          exact ⟨le_refl 0, by norm_num⟩
        · intro n
          exact ⟨le_refl 0, by norm_num⟩
    · cases hok

/-- Helper: a successful bulk add preserves the per-row reservation
bound. -/
theorem rqInRange_addInventoryItem (defs : List ItemDefinition)
    (db : InventoryDB) (inp : AddInput) (db' : InventoryDB)
    (h : rqInRange db.items) (hok : addInventoryItem defs db inp = .ok db') :
    rqInRange db'.items := by
  unfold addInventoryItem at hok
  split at hok
  · split at hok
    · cases hok
    · cases hok
      exact rqInRange_bulkCreate _ _ _ _ _ h
  · cases hok
    exact rqInRange_bulkCreate _ _ _ _ _ h

/-- Helper: a successful status transition preserves the per-row
reservation bound. -/
theorem rqInRange_updateOrderStatus (db : DB) (oid : Nat)
    (st : OrderStatus) (db' : DB) (h : rqInRange db.inv.items)
    (hok : updateOrderStatus db oid st = .ok db') :
    rqInRange db'.inv.items := by
  unfold updateOrderStatus at hok
  split at hok
  · cases hok
  · dsimp only at hok
    split at hok
    · split at hok
      · cases hok
      · rename_i items1 heq
        cases hok
        exact rqInRange_applyTransitionEffects _ _ _ _ items1 heq h
    · cases hok

/-- C2 (amended): after every successful operation of the core — manual
cut, allocation cut, bulk add, any order status transition — every row's
`reservedQuantity` stays within `[0, 1]`, and consequently the total
reserved quantity over the AVAILABLE rows of every
`(definition, width, height)` stock group is at most the number of
AVAILABLE rows in that group.  (The claim's further assertion that
`reservedQuantity` is nonzero only while the row is AVAILABLE fails: the
cuts consume a source without clearing its reservation.) -/
theorem reservation_accounting_invariant :
    (∀ (db : InventoryDB) (inp : CutInput) (db' : InventoryDB),
      rqInRange db.items → cutInventoryItem db inp = .ok db' →
      rqInRange db'.items ∧ ∀ defId (w hgt : ℚ),
        groupReservedSum db'.items defId w hgt ≤
          (groupAvailableCount db'.items defId w hgt : ℚ)) ∧
    (∀ (db : InventoryDB) (inp : OrderCutInput) (db' : InventoryDB),
      rqInRange db.items → performOrderCut db inp = .ok db' →
      rqInRange db'.items ∧ ∀ defId (w hgt : ℚ),
        groupReservedSum db'.items defId w hgt ≤
          (groupAvailableCount db'.items defId w hgt : ℚ)) ∧
    (∀ (defs : List ItemDefinition) (db : InventoryDB) (inp : AddInput)
      (db' : InventoryDB),
      rqInRange db.items → addInventoryItem defs db inp = .ok db' →
      rqInRange db'.items ∧ ∀ defId (w hgt : ℚ),
        groupReservedSum db'.items defId w hgt ≤
          (groupAvailableCount db'.items defId w hgt : ℚ)) ∧
    (∀ (db : DB) (oid : Nat) (st : OrderStatus) (db' : DB),
      rqInRange db.inv.items → updateOrderStatus db oid st = .ok db' →
      rqInRange db'.inv.items ∧ ∀ defId (w hgt : ℚ),
        groupReservedSum db'.inv.items defId w hgt ≤
          (groupAvailableCount db'.inv.items defId w hgt : ℚ)) := by
  refine ⟨?_, ?_, ?_, ?_⟩
  · intro db inp db' h hok
    have hp := rqInRange_cutInventoryItem db inp db' h hok
    exact ⟨hp, fun defId w hgt => groupSum_le_of_rqInRange _ hp defId w hgt⟩
  · intro db inp db' h hok
    have hp := rqInRange_performOrderCut db inp db' h hok
    exact ⟨hp, fun defId w hgt => groupSum_le_of_rqInRange _ hp defId w hgt⟩
  · intro defs db inp db' h hok
    have hp := rqInRange_addInventoryItem defs db inp db' h hok
    exact ⟨hp, fun defId w hgt => groupSum_le_of_rqInRange _ hp defId w hgt⟩
  · intro db oid st db' h hok
    have hp := rqInRange_updateOrderStatus db oid st db' h hok
    exact ⟨hp, fun defId w hgt => groupSum_le_of_rqInRange _ hp defId w hgt⟩

/-- C2 witness: consuming the reserved 100 × 100 unit whole keeps every
reservation within `[0, 1]` and the group accounting inequality for its own
stock group. -/
theorem reservation_accounting_invariant_witness :
    rqInRange exConsumedReservedDB.items ∧
    groupReservedSum exConsumedReservedDB.items none 100 100 ≤
      (groupAvailableCount exConsumedReservedDB.items none 100 100 : ℚ) := by
  have h0 : rqInRange exReservedDB.items := by
    intro it hit
    rw [List.mem_singleton.mp hit]
    exact ⟨by norm_num [exReservedUnit], by norm_num [exReservedUnit]⟩
  have hok : cutInventoryItem exReservedDB exConsumeWholeInp =
      .ok exConsumedReservedDB := by
    unfold cutInventoryItem findItem
    norm_num [exReservedDB, exReservedUnit, exConsumeWholeInp, consumeRow,
      updateItem, exConsumedReservedDB]
  have hr := (reservation_accounting_invariant.1 exReservedDB
    exConsumeWholeInp exConsumedReservedDB h0 hok)
  exact ⟨hr.1, hr.2 none 100 100⟩

/-- Helper: consuming a row preserves the store's length. -/
theorem consumeRow_length (items : List InventoryItem) (i : Nat) :
    (consumeRow items i).length = items.length :=
  List.length_map _ _

/-- Helper: the rows a manual-cut transaction appends, as a function of the
save flags and the computed remnants. -/
theorem executeCutTransaction_drop (db : InventoryDB) (inp : CutInput)
    (orig : InventoryItem) (main : Remnant) (secOpt : Option Remnant) :
    (executeCutTransaction db inp orig main secOpt).items.drop db.items.length =
      (if inp.saveMainRemnant = true then [remnantRow orig inp.id main db.nextId] else []) ++
      (match secOpt with
       | some s =>
           if inp.saveSecondaryRemnant = true then
             [remnantRow orig inp.id s (if inp.saveMainRemnant = true then db.nextId + 1 else db.nextId)]
           else []
       | none => []) := by
  have hlen : (consumeRow db.items inp.id).length = db.items.length :=
    consumeRow_length _ _
  have hdropc : (consumeRow db.items inp.id).drop db.items.length = [] := by
    have hd := List.drop_length (consumeRow db.items inp.id)
    rwa [consumeRow_length] at hd
  unfold executeCutTransaction createItem
  dsimp only
  cases secOpt with
  | none =>
    dsimp only
    rw [List.append_nil]
    by_cases hm : inp.saveMainRemnant = true
    · rw [if_pos hm, if_pos hm]
      exact List.drop_left' hlen
    · rw [if_neg hm, if_neg hm]
      exact hdropc
  | some s =>
    dsimp only
    by_cases hm : inp.saveMainRemnant = true
    · rw [if_pos hm, if_pos hm, if_pos hm]
      by_cases hs : inp.saveSecondaryRemnant = true
      · rw [if_pos hs, if_pos hs]
        dsimp only
        rw [List.append_assoc]
        exact List.drop_left' hlen
      · rw [if_neg hs, if_neg hs]
        rw [List.append_nil]
        exact List.drop_left' hlen
    · rw [if_neg hm, if_neg hm, if_neg hm]
      by_cases hs : inp.saveSecondaryRemnant = true
      · rw [if_pos hs, if_pos hs]
        rw [List.nil_append]
        exact List.drop_left' hlen
      · rw [if_neg hs, if_neg hs]
        rw [List.append_nil]
        exact hdropc

/-- Helper: the horizontal smart-cut branch of `cutInventoryItem`. -/
theorem cutInventoryItem_horizontal_eq (db : InventoryDB) (inp : CutInput)
    (src : InventoryItem) (hfind : findItem db.items inp.id = some src)
    (havail : src.status = .AVAILABLE)
    (hnw : ¬(inp.cutWidth = src.width ∧ inp.cutHeight = src.height))
    (hdir : inp.direction = .horizontal) (hw : inp.cutWidth ≤ src.width) :
    cutInventoryItem db inp = .ok (executeCutTransaction db inp src
      ⟨src.width - inp.cutWidth, src.height, src.thickness⟩
      (if inp.cutHeight < src.height then
        some ⟨inp.cutWidth, src.height - inp.cutHeight, src.thickness⟩ else none)) := by
  unfold cutInventoryItem
  simp only [hfind, hdir]
  rw [if_pos havail, if_neg hnw, if_neg (not_lt.mpr hw)]

/-- Helper: the vertical smart-cut branch of `cutInventoryItem`. -/
theorem cutInventoryItem_vertical_eq (db : InventoryDB) (inp : CutInput)
    (src : InventoryItem) (hfind : findItem db.items inp.id = some src)
    (havail : src.status = .AVAILABLE)
    (hnw : ¬(inp.cutWidth = src.width ∧ inp.cutHeight = src.height))
    (hdir : inp.direction = .vertical) (hh : inp.cutHeight ≤ src.height) :
    cutInventoryItem db inp = .ok (executeCutTransaction db inp src
      ⟨src.width, src.height - inp.cutHeight, src.thickness⟩
      (if inp.cutWidth < src.width then
        some ⟨src.width - inp.cutWidth, inp.cutHeight, src.thickness⟩ else none)) := by
  unfold cutInventoryItem
  simp only [hfind, hdir]
  rw [if_pos havail, if_neg hnw, if_neg (not_lt.mpr hh)]

/-- C7: in both cut operations, every stored piece is priced at
`sourcePrice × pieceArea / sourceArea`, and the cut rectangle's area plus
the areas of the stored pieces never exceeds the source's area, with
equality when nothing is discarded (both manual remnants saved; both
offcuts above the 10 mm minimum). -/
theorem cut_pricing_and_area_conservation :
    (∀ (db : InventoryDB) (inp : CutInput) (src : InventoryItem),
      findItem db.items inp.id = some src → src.status = .AVAILABLE →
      0 < inp.cutWidth → 0 < inp.cutHeight → 0 < src.width → 0 < src.height →
      inp.cutWidth ≤ src.width → inp.cutHeight ≤ src.height →
      ∀ db', cutInventoryItem db inp = .ok db' →
        (∀ r ∈ db'.items.drop db.items.length,
          r.price = src.price * (r.width * r.height) / (src.width * src.height)) ∧
        inp.cutWidth * inp.cutHeight +
          ((db'.items.drop db.items.length).map (fun r => r.width * r.height)).sum ≤
          src.width * src.height ∧
        (inp.saveMainRemnant = true → inp.saveSecondaryRemnant = true →
          inp.cutWidth * inp.cutHeight +
            ((db'.items.drop db.items.length).map (fun r => r.width * r.height)).sum =
            src.width * src.height)) ∧
    (∀ (db : InventoryDB) (inp : OrderCutInput) (src : InventoryItem),
      findItem db.items inp.sourceItemId = some src → src.status = .AVAILABLE →
      0 < inp.targetWidth → 0 < inp.targetHeight → 0 < src.width → 0 < src.height →
      inp.targetWidth ≤ src.width → inp.targetHeight ≤ src.height →
      ∀ db', performOrderCut db inp = .ok db' →
        (∀ r ∈ db'.items.drop db.items.length,
          r.price = src.price * (r.width * r.height) / (src.width * src.height)) ∧
        ((db'.items.drop db.items.length).map (fun r => r.width * r.height)).sum ≤
          src.width * src.height ∧
        ((10:ℚ) < src.width - inp.targetWidth ∧ (10:ℚ) < src.height →
          (10:ℚ) < inp.targetWidth ∧ (10:ℚ) < src.height - inp.targetHeight →
          ((db'.items.drop db.items.length).map (fun r => r.width * r.height)).sum =
            src.width * src.height)) := by
  constructor
  · intro db inp src hfind havail hcw hch hsw hsh hw hh db' hok'
    have hA : 0 ≤ (src.width - inp.cutWidth) * src.height :=
      mul_nonneg (by linarith) hsh.le
    have hB : 0 ≤ inp.cutWidth * (src.height - inp.cutHeight) :=
      mul_nonneg hcw.le (by linarith)
    by_cases hwhole : inp.cutWidth = src.width ∧ inp.cutHeight = src.height
    · have hdrop : (consumeRow db.items inp.id).drop db.items.length = [] := by
        have hd := List.drop_length (consumeRow db.items inp.id)
        rwa [consumeRow_length] at hd
      have hok : cutInventoryItem db inp =
          .ok { db with items := consumeRow db.items inp.id } := by
        unfold cutInventoryItem
        simp only [hfind]
        rw [if_pos havail, if_pos hwhole]
      rw [hok] at hok'
      cases hok'
      refine ⟨?_, ?_, ?_⟩
      · intro r hr
        dsimp only at hr
        rw [hdrop] at hr
        cases hr
      · dsimp only
        rw [hdrop]
        simp only [List.map_nil, List.sum_nil, add_zero]
        rw [hwhole.1, hwhole.2]
      · intro _ _
        dsimp only
        rw [hdrop]
        simp only [List.map_nil, List.sum_nil, add_zero]
        rw [hwhole.1, hwhole.2]
    · have honly : ∀ (c : Prop) (inst : Decidable c) (row r : InventoryItem),
          r ∈ (@ite _ c inst [row] []) → r = row := by
        intro c inst row r hmem
        by_cases hc : c
        · rw [if_pos hc] at hmem
          exact List.mem_singleton.mp hmem
        · rw [if_neg hc] at hmem
          cases hmem
      cases hdir : inp.direction with
      | horizontal =>
        have hok := cutInventoryItem_horizontal_eq db inp src hfind havail
          hwhole hdir hw
        by_cases hsec : inp.cutHeight < src.height
        · rw [if_pos hsec] at hok
          have hI : inp.cutWidth * inp.cutHeight +
              ((src.width - inp.cutWidth) * src.height +
                inp.cutWidth * (src.height - inp.cutHeight)) =
              src.width * src.height := by ring
          rw [hok] at hok'
          cases hok'
          refine ⟨?_, ?_, ?_⟩
          · intro r hr
            rw [executeCutTransaction_drop] at hr
            dsimp only at hr
            rcases List.mem_append.mp hr with h1 | h2
            · rw [honly _ _ _ _ h1]
              rfl
            · rw [honly _ _ _ _ h2]
              rfl
          · rw [executeCutTransaction_drop]
            dsimp only
            by_cases hm : inp.saveMainRemnant = true <;>
              by_cases hs : inp.saveSecondaryRemnant = true <;>
              simp only [hm, hs, if_true, if_false, ite_true, ite_false, Bool.false_eq_true,
                List.nil_append, List.append_nil, List.map_cons, List.map_nil,
                List.map_append, List.sum_cons, List.sum_nil, List.sum_append,
                remnantRow, add_zero] <;>
              linarith [hI, hA, hB]
          · intro hm hs
            rw [executeCutTransaction_drop]
            dsimp only
            simp only [hm, hs, ite_true, List.map_append, List.map_cons,
              List.map_nil, List.sum_append, List.sum_cons, List.sum_nil,
              remnantRow, add_zero]
            linarith [hI]
        · rw [if_neg hsec] at hok
          have hhe : inp.cutHeight = src.height := le_antisymm hh (not_lt.mp hsec)
          have hI : inp.cutWidth * inp.cutHeight +
              (src.width - inp.cutWidth) * src.height =
              src.width * src.height := by
            rw [hhe]
            ring
          rw [hok] at hok'
          cases hok'
          refine ⟨?_, ?_, ?_⟩
          · intro r hr
            rw [executeCutTransaction_drop] at hr
            dsimp only at hr
            rcases List.mem_append.mp hr with h1 | h2
            · rw [honly _ _ _ _ h1]
              rfl
            · cases h2
          · rw [executeCutTransaction_drop]
            dsimp only
            by_cases hm : inp.saveMainRemnant = true <;>
              simp only [hm, if_true, if_false, ite_true, ite_false, Bool.false_eq_true,
                List.append_nil, List.map_cons, List.map_nil, List.sum_cons,
                List.sum_nil, remnantRow, add_zero] <;>
              linarith [hI, hA]
          · intro hm hs
            rw [executeCutTransaction_drop]
            dsimp only
            simp only [hm, hs, ite_true, List.append_nil, List.map_cons,
              List.map_nil, List.sum_cons, List.sum_nil, remnantRow, add_zero]
            linarith [hI]
      | vertical =>
        have hok := cutInventoryItem_vertical_eq db inp src hfind havail
          hwhole hdir hh
        by_cases hsec : inp.cutWidth < src.width
        · rw [if_pos hsec] at hok
          have hI : inp.cutWidth * inp.cutHeight +
              (src.width * (src.height - inp.cutHeight) +
                (src.width - inp.cutWidth) * inp.cutHeight) =
              src.width * src.height := by ring
          have hA2 : 0 ≤ src.width * (src.height - inp.cutHeight) :=
            mul_nonneg hsw.le (by linarith)
          have hB2 : 0 ≤ (src.width - inp.cutWidth) * inp.cutHeight :=
            mul_nonneg (by linarith) hch.le
          rw [hok] at hok'
          cases hok'
          refine ⟨?_, ?_, ?_⟩
          · intro r hr
            rw [executeCutTransaction_drop] at hr
            dsimp only at hr
            rcases List.mem_append.mp hr with h1 | h2
            · rw [honly _ _ _ _ h1]
              rfl
            · rw [honly _ _ _ _ h2]
              rfl
          · rw [executeCutTransaction_drop]
            dsimp only
            by_cases hm : inp.saveMainRemnant = true <;>
              by_cases hs : inp.saveSecondaryRemnant = true <;>
              simp only [hm, hs, if_true, if_false, ite_true, ite_false, Bool.false_eq_true,
                List.nil_append, List.append_nil, List.map_cons, List.map_nil,
                List.map_append, List.sum_cons, List.sum_nil, List.sum_append,
                remnantRow, add_zero] <;>
              linarith [hI, hA2, hB2]
          · intro hm hs
            rw [executeCutTransaction_drop]
            dsimp only
            simp only [hm, hs, ite_true, List.map_append, List.map_cons,
              List.map_nil, List.sum_append, List.sum_cons, List.sum_nil,
              remnantRow, add_zero]
            linarith [hI]
        · rw [if_neg hsec] at hok
          have hwe : inp.cutWidth = src.width := le_antisymm hw (not_lt.mp hsec)
          have hI : inp.cutWidth * inp.cutHeight +
              src.width * (src.height - inp.cutHeight) =
              src.width * src.height := by
            rw [hwe]
            ring
          have hA2 : 0 ≤ src.width * (src.height - inp.cutHeight) :=
            mul_nonneg hsw.le (by linarith)
          rw [hok] at hok'
          cases hok'
          refine ⟨?_, ?_, ?_⟩
          · intro r hr
            rw [executeCutTransaction_drop] at hr
            dsimp only at hr
            rcases List.mem_append.mp hr with h1 | h2
            · rw [honly _ _ _ _ h1]
              rfl
            · cases h2
          · rw [executeCutTransaction_drop]
            dsimp only
            by_cases hm : inp.saveMainRemnant = true <;>
              simp only [hm, if_true, if_false, ite_true, ite_false, Bool.false_eq_true,
                List.append_nil, List.map_cons, List.map_nil, List.sum_cons,
                List.sum_nil, remnantRow, add_zero] <;>
              linarith [hI, hA2]
          · intro hm hs
            rw [executeCutTransaction_drop]
            dsimp only
            simp only [hm, hs, ite_true, List.append_nil, List.map_cons,
              List.map_nil, List.sum_cons, List.sum_nil, remnantRow, add_zero]
            linarith [hI]
  · intro db inp src hfind havail hcw hch hsw hsh hw hh db' hok'
    have hok := performOrderCut_eq db inp src hfind havail hw hh
    have hlen : (consumeRow db.items inp.sourceItemId).length = db.items.length :=
      consumeRow_length _ _
    have hA : 0 ≤ (src.width - inp.targetWidth) * src.height :=
      mul_nonneg (by linarith) hsh.le
    have hB : 0 ≤ inp.targetWidth * (src.height - inp.targetHeight) :=
      mul_nonneg hcw.le (by linarith)
    have hI : inp.targetWidth * inp.targetHeight +
        ((src.width - inp.targetWidth) * src.height +
          inp.targetWidth * (src.height - inp.targetHeight)) =
        src.width * src.height := by ring
    rw [hok] at hok'
    cases hok'
    refine ⟨?_, ?_, ?_⟩
    · intro r hr
      dsimp only at hr
      rw [List.append_assoc, List.append_assoc, List.drop_left' hlen] at hr
      rcases List.mem_cons.mp hr with h1 | h2
      · rw [h1]
        rfl
      · rcases List.mem_append.mp h2 with h0 | h24
        · cases h0
        · rcases List.mem_append.mp h24 with h3 | h4
          · by_cases hcr : (10:ℚ) < src.width - inp.targetWidth ∧ (10:ℚ) < src.height
            · rw [if_pos hcr] at h3
              rw [List.mem_singleton.mp h3]
              rfl
            · rw [if_neg hcr] at h3
              cases h3
          · by_cases hct : (10:ℚ) < inp.targetWidth ∧ (10:ℚ) < src.height - inp.targetHeight
            · rw [if_pos hct] at h4
              rw [List.mem_singleton.mp h4]
              rfl
            · rw [if_neg hct] at h4
              cases h4
    · dsimp only
      rw [List.append_assoc, List.append_assoc, List.drop_left' hlen]
      by_cases hcr : (10:ℚ) < src.width - inp.targetWidth ∧ (10:ℚ) < src.height
      · by_cases hct : (10:ℚ) < inp.targetWidth ∧ (10:ℚ) < src.height - inp.targetHeight
        · rw [if_pos hcr, if_pos hct]
          simp only [List.map_cons, List.map_nil, List.map_append,
            List.sum_cons, List.sum_nil, List.sum_append, allocTargetRow,
            allocRightOffcutRow, allocTopOffcutRow, add_zero]
          linarith [hI]
        · rw [if_pos hcr, if_neg hct]
          simp only [List.append_nil, List.map_cons, List.map_nil,
            List.map_append, List.sum_cons, List.sum_nil, List.sum_append,
            allocTargetRow, allocRightOffcutRow, add_zero]
          linarith [hI, hB]
      · by_cases hct : (10:ℚ) < inp.targetWidth ∧ (10:ℚ) < src.height - inp.targetHeight
        · rw [if_neg hcr, if_pos hct]
          simp only [List.nil_append, List.map_cons, List.map_nil,
            List.map_append, List.sum_cons, List.sum_nil, List.sum_append,
            allocTargetRow, allocTopOffcutRow, add_zero]
          linarith [hI, hA]
        · rw [if_neg hcr, if_neg hct]
          simp only [List.append_nil, List.nil_append, List.map_cons,
            List.map_nil, List.sum_cons, List.sum_nil, allocTargetRow,
            add_zero]
          linarith [hI, hA, hB]
    · intro hcr hct
      dsimp only
      rw [List.append_assoc, List.append_assoc, List.drop_left' hlen]
      rw [if_pos hcr, if_pos hct]
      simp only [List.map_cons, List.map_nil, List.map_append, List.sum_cons,
        List.sum_nil, List.sum_append, allocTargetRow, allocRightOffcutRow,
        allocTopOffcutRow, add_zero]
      linarith [hI]

/-- C7 witness: for the 50 × 60 smart cut of the 100 × 100 board, the cut
area plus the stored remnant areas equals the source area, and the main
remnant is priced area-proportionally. -/
theorem cut_pricing_and_area_conservation_witness :
    exSmartCutInp.cutWidth * exSmartCutInp.cutHeight +
      ((exSmartCutResult.items.drop exPlainDB.items.length).map
        (fun r => r.width * r.height)).sum =
      exPlainUnit.width * exPlainUnit.height ∧
    (250 : ℚ) = exPlainUnit.price * ((50 : ℚ) * 100) /
      (exPlainUnit.width * exPlainUnit.height) := by
  have hok : cutInventoryItem exPlainDB exSmartCutInp = .ok exSmartCutResult := by
    unfold cutInventoryItem findItem
    norm_num [exPlainDB, exPlainUnit, exSmartCutInp, executeCutTransaction,
      createItem, consumeRow, updateItem, remnantRow, generateRemnantName,
      exSmartCutResult]
    rfl
  have h := (cut_pricing_and_area_conservation.1 exPlainDB exSmartCutInp
    exPlainUnit (by decide) (by decide) (by decide) (by decide) (by decide)
    (by decide) (by decide) (by decide) exSmartCutResult hok)
  refine ⟨h.2.2 rfl rfl, ?_⟩
  have hmem : exSmartCutResult.items.get ⟨1, by decide⟩ ∈
      exSmartCutResult.items.drop exPlainDB.items.length := by decide
  have hp := h.1 _ hmem
  simpa [exSmartCutResult, exPlainUnit] using hp

/-- Helper: key membership after an upsert. -/
theorem mem_keys_upsertGroup (m : List (GroupKey × GroupData)) (k : GroupKey)
    (d : GroupData) (x : GroupKey) :
    x ∈ (upsertGroup m k d).map Prod.fst ↔ x ∈ m.map Prod.fst ∨ x = k := by
  induction m with
  | nil => simp [upsertGroup]
  | cons p rest ih =>
    obtain ⟨k', d'⟩ := p
    unfold upsertGroup
    by_cases hk : k' = k
    · rw [if_pos hk]
      subst hk
      simp only [List.map_cons, List.mem_cons]
      tauto
    · rw [if_neg hk]
      simp only [List.map_cons, List.mem_cons, ih]
      tauto

/-- Helper: an upsert keeps the group keys duplicate-free. -/
theorem nodup_keys_upsertGroup (m : List (GroupKey × GroupData)) (k : GroupKey)
    (d : GroupData) (h : (m.map Prod.fst).Nodup) :
    ((upsertGroup m k d).map Prod.fst).Nodup := by
  induction m with
  | nil => simp [upsertGroup]
  | cons p rest ih =>
    obtain ⟨k', d'⟩ := p
    simp only [List.map_cons, List.nodup_cons] at h
    unfold upsertGroup
    by_cases hk : k' = k
    · rw [if_pos hk]
      simp only [List.map_cons, List.nodup_cons]
      exact ⟨h.1, h.2⟩
    · rw [if_neg hk]
      simp only [List.map_cons, List.nodup_cons]
      constructor
      · rw [mem_keys_upsertGroup]
        rintro (hmem | rfl)
        · exact h.1 hmem
        · exact hk rfl
      · exact ih h.2

/-- Helper: folding upserts keeps the group keys duplicate-free. -/
theorem nodup_keys_foldUpsert (contribs : List (GroupKey × GroupData)) :
    ∀ acc, (acc.map Prod.fst).Nodup →
    ((contribs.foldl (fun a kd => upsertGroup a kd.1 kd.2) acc).map Prod.fst).Nodup := by
  induction contribs with
  | nil => intro acc h; exact h
  | cons c rest ih =>
    intro acc h
    rw [List.foldl_cons]
    exact ih _ (nodup_keys_upsertGroup _ _ _ h)

/-- Helper: folding upserts only grows key membership. -/
theorem mem_keys_foldUpsert (contribs : List (GroupKey × GroupData)) :
    ∀ acc x, x ∈ acc.map Prod.fst →
    x ∈ (contribs.foldl (fun a kd => upsertGroup a kd.1 kd.2) acc).map Prod.fst := by
  induction contribs with
  | nil => intro acc x h; exact h
  | cons c rest ih =>
    intro acc x h
    rw [List.foldl_cons]
    exact ih _ x ((mem_keys_upsertGroup _ _ _ x).mpr (Or.inl h))

/-- Helper: every contribution's key appears among the folded group keys. -/
theorem contrib_mem_keys_foldUpsert (contribs : List (GroupKey × GroupData)) :
    ∀ acc kd, kd ∈ contribs →
    kd.1 ∈ (contribs.foldl (fun a kd => upsertGroup a kd.1 kd.2) acc).map Prod.fst := by
  induction contribs with
  | nil => intro acc kd h; cases h
  | cons c rest ih =>
    intro acc kd h
    rw [List.foldl_cons]
    rcases List.mem_cons.mp h with rfl | h2
    · exact mem_keys_foldUpsert rest _ _
        ((mem_keys_upsertGroup _ _ _ _).mpr (Or.inr rfl))
    · exact ih _ kd h2

/-- Helper: classification leaves all key and aggregate fields
unchanged. -/
theorem classifyGroup_fields (stock : List InventoryItem) (k : GroupKey)
    (d : GroupData) :
    (classifyGroup stock k d).itemDefinitionId = k.itemDefinitionId ∧
    (classifyGroup stock k d).width = k.width ∧
    (classifyGroup stock k d).height = k.height ∧
    (classifyGroup stock k d).category = d.category ∧
    (classifyGroup stock k d).quantityRequired = d.quantityRequired := by
  obtain ⟨n, cat, qty⟩ := d
  obtain ⟨defId, w, h⟩ := k
  cases cat <;> cases w <;> cases h <;> simp [classifyGroup]

/-- Helper: on a dimensioned sheet group, classification yields the
ready / cut-needed / missing decision chain. -/
theorem classifyGroup_sheet_status (stock : List InventoryItem) (k : GroupKey)
    (d : GroupData) (w h : ℚ) (hc : d.category = .SHEET_MATERIAL)
    (hw : k.width = some w) (hh : k.height = some h) :
    (classifyGroup stock k d).status =
      (if d.quantityRequired ≤ (exactCountFor stock k.itemDefinitionId w h : ℚ)
       then .ready
       else if 0 < exactCountFor stock k.itemDefinitionId w h +
           largerCountFor stock k.itemDefinitionId w h then .cut_needed
       else .missing) := by
  obtain ⟨n, cat, qty⟩ := d
  obtain ⟨defId, kw, kh⟩ := k
  dsimp only at hc hw hh
  subst hc
  subst hw
  subst hh
  simp [classifyGroup]

/-- C8: the availability check returns one requirement per
`(definition, width, height)` group — two recipe lines for the same
definition at different sizes stay separate — and a dimensioned
SHEET_MATERIAL requirement is `ready` iff the exact AVAILABLE count covers
the required quantity, else `cut_needed` iff any exact or larger stock
exists, else `missing`. -/
theorem availability_grouping_and_classification
    (lines : List OrderLine) (stock : List InventoryItem) :
    ((getOrderMaterialAvailability lines stock).map
      (fun r => (r.itemDefinitionId, r.width, r.height))).Nodup ∧
    (∀ ol ∈ lines, ∀ rl ∈ ol.recipe, ∀ defId, rl.itemDefinitionId = some defId →
      ∃ r ∈ getOrderMaterialAvailability lines stock,
        r.itemDefinitionId = defId ∧ r.width = rl.width ∧ r.height = rl.height) ∧
    (∀ r ∈ getOrderMaterialAvailability lines stock,
      r.category = .SHEET_MATERIAL → ∀ w h, r.width = some w → r.height = some h →
      ((r.status = .ready ↔
          r.quantityRequired ≤ (exactCountFor stock r.itemDefinitionId w h : ℚ)) ∧
       (r.status = .cut_needed ↔
          ¬ r.quantityRequired ≤ (exactCountFor stock r.itemDefinitionId w h : ℚ) ∧
          0 < exactCountFor stock r.itemDefinitionId w h +
            largerCountFor stock r.itemDefinitionId w h) ∧
       (r.status = .missing ↔
          ¬ r.quantityRequired ≤ (exactCountFor stock r.itemDefinitionId w h : ℚ) ∧
          ¬ 0 < exactCountFor stock r.itemDefinitionId w h +
            largerCountFor stock r.itemDefinitionId w h))) := by
  refine ⟨?_, ?_, ?_⟩
  · unfold getOrderMaterialAvailability
    rw [List.map_map]
    have hpt : ((fun r : MaterialRequirement => (r.itemDefinitionId, r.width, r.height)) ∘
        (fun kd : GroupKey × GroupData => classifyGroup stock kd.1 kd.2)) =
        ((fun k : GroupKey => (k.itemDefinitionId, k.width, k.height)) ∘ Prod.fst) := by
      funext kd
      have hf := classifyGroup_fields stock kd.1 kd.2
      simp only [Function.comp_apply, hf.1, hf.2.1, hf.2.2.1]
    rw [hpt, ← List.map_map]
    have hkeys : ((aggregateRequirements lines).map Prod.fst).Nodup :=
      nodup_keys_foldUpsert _ [] (by simp)
    refine hkeys.map ?_
    intro a b hab
    cases a
    cases b
    simpa using hab
  · intro ol hol rl hrl defId hdef
    have hcontrib : ((⟨defId, rl.width, rl.height⟩ : GroupKey),
        (⟨rl.definitionName, rl.category, rl.quantity * (ol.quantity : ℚ)⟩ : GroupData)) ∈
        requirementContributions lines := by
      unfold requirementContributions
      rw [List.mem_flatMap]
      refine ⟨ol, hol, ?_⟩
      rw [List.mem_filterMap]
      refine ⟨rl, hrl, ?_⟩
      rw [hdef]
      rfl
    have hkey := contrib_mem_keys_foldUpsert _ [] _ hcontrib
    rcases List.mem_map.mp hkey with ⟨kd, hkd, hfst⟩
    refine ⟨classifyGroup stock kd.1 kd.2,
      List.mem_map_of_mem _ hkd, ?_⟩
    have hf := classifyGroup_fields stock kd.1 kd.2
    rw [hf.1, hf.2.1, hf.2.2.1, hfst]
    exact ⟨rfl, rfl, rfl⟩
  · intro r hr hcat w h hw hh
    unfold getOrderMaterialAvailability at hr
    rcases List.mem_map.mp hr with ⟨kd, hkd, rfl⟩
    have hf := classifyGroup_fields stock kd.1 kd.2
    have hc : kd.2.category = .SHEET_MATERIAL := by
      rw [← hf.2.2.2.1]
      exact hcat
    have hww : kd.1.width = some w := by
      rw [← hf.2.1]
      exact hw
    have hhh : kd.1.height = some h := by
      rw [← hf.2.2.1]
      exact hh
    have hst := classifyGroup_sheet_status stock kd.1 kd.2 w h hc hww hhh
    rw [hst, hf.1, hf.2.2.2.2]
    by_cases h1 : kd.2.quantityRequired ≤
        (exactCountFor stock kd.1.itemDefinitionId w h : ℚ)
    · simp [h1]
    · by_cases h2 : 0 < exactCountFor stock kd.1.itemDefinitionId w h +
          largerCountFor stock kd.1.itemDefinitionId w h
      · simp [h1, h2]
      · simp [h1, h2]

/-- C8 witness: on the two-size fixture order (definition 7 required at
500 × 500 and at 300 × 300), the availability result carries no duplicate
`(definition, width, height)` key. -/
theorem availability_grouping_and_classification_witness :
    ((getOrderMaterialAvailability exTwoSizeLines exAvailStock).map
      (fun r => (r.itemDefinitionId, r.width, r.height))).Nodup :=
  (availability_grouping_and_classification exTwoSizeLines exAvailStock).1

end Bublinka
